import Mathlib

/-!
Shallow embedding of the connection loop of the daemon `envoyd`.

The definitions below follow `src/envoyd.c`.  C strings are lists of
characters (one `Char` per byte); the operating system's answers (peer
credentials, the liveness probe, the pipe contents, the wait status) are
explicit inputs of type `conn_t`.

`common.h` (the declaration of `struct agent_data_t`) is not part of the
sources at hand; the record layout is taken from the wire format of the
specification, and the capacity of the two character arrays as well as the
size `BUFSIZ` of the read buffer are parameters (`config`).
-/

namespace Envoyd

/-! ## Data model -/

/-- The terminating byte of a C string. -/
def NUL : Char := Char.ofNat 0

/-- Modelled from the spec: `struct agent_data_t` is declared in `common.h`,
which is missing; the wire format lists, in order, status code, kind code,
process id, socket path, auxiliary info string, first-observation flag.
`sock` and `gpg` hold the raw bytes of the two character arrays; the length
of the list is the capacity of the array. -/
structure agent_data_t where
  status : Nat
  type : Nat
  pid : Int
  sock : List Char
  gpg : List Char
  first_run : Bool
deriving DecidableEq, Repr

/-- One node of the linked list `agents` (`struct agent_info_t`); the list
itself is a `List agent_info_t`, head first. -/
structure agent_info_t where
  uid : Nat
  d : agent_data_t
deriving DecidableEq, Repr

/-- The two ways in which a run leaves the embedding: `fatal` is
`err(EXIT_FAILURE, ...)` (the daemon exits); `undefined` is a store to
memory that the embedding does not hold, namely past the last byte of a
record, past the read buffer, or through a null pointer, after which the
program text no longer tells what the daemon does. -/
inductive fault where
  | fatal
  | undefined
deriving DecidableEq, Repr

/-- Parameters fixed outside `envoyd.c`: the daemon's effective uid
(`geteuid()`), the declared size of the arrays `sock` and `gpg`, and
`BUFSIZ`. -/
structure config where
  uid : Nat
  cap : Nat
  BUFSIZ : Nat
deriving DecidableEq, Repr

/-! ## C library functions used by the parser -/

/-- The C string that starts at a pointer: the bytes up to the first NUL. -/
def cstr (l : List Char) : List Char := l.takeWhile (fun c => c != NUL)

/-- Function `strchr(s, c)` on a C string `s`: offset of the first `c`. -/
def strchr (s : List Char) (c : Char) : Option Nat :=
  if c ∈ s then some (s.indexOf c) else none

/-- Function `isspace` in the C locale. -/
def isspace (c : Char) : Bool :=
  c == ' ' || c == '\t' || c == '\n' || c == Char.ofNat 11 || c == Char.ofNat 12 || c == '\r'

/-- Value of the leading run of decimal digits, continuing from `acc`. -/
def digits_value (acc : Nat) : List Char → Nat
  | [] => acc
  | c :: cs =>
    if '0' ≤ c ∧ c ≤ '9' then digits_value (acc * 10 + (c.toNat - 48)) cs else acc

/-- Saturation to the range of a 64-bit `long`, as `strtol` does. -/
def clamp_long (n : Int) : Int := max (-(2 ^ 63)) (min n (2 ^ 63 - 1))

/-- Conversion of a `long` to a 32-bit `int` (two's complement, explicit wrap). -/
def to_int32 (n : Int) : Int := (n + 2 ^ 31) % 2 ^ 32 - 2 ^ 31

/-- Function `atoi`, which is `(int) strtol(s, NULL, 10)`: optional white
space, optional sign, decimal digits; the value saturates to a `long` and
is then cut to 32 bits. -/
def atoi (s : List Char) : Int :=
  match s.dropWhile isspace with
  | '-' :: r => to_int32 (clamp_long (-(digits_value 0 r : Int)))
  | '+' :: r => to_int32 (clamp_long (digits_value 0 r))
  | r => to_int32 (clamp_long (digits_value 0 r))

/-- The two character arrays of a record. -/
inductive field where
  | sock
  | gpg
deriving DecidableEq, Repr

/-- The bytes `src` stored one after the other from the start of the array
`dst`: the array afterwards, and the bytes that found no room in it. -/
def store_bytes : List Char → List Char → List Char × List Char
  | [], dst => (dst, [])
  | c :: src, [] => ([], c :: src)
  | c :: src, _ :: dst => (c :: (store_bytes src dst).1, (store_bytes src dst).2)

/-- The bytes that run past the end of `gpg`: the next byte of the record is
`first_run`, the last one; a second byte leaves the record. -/
def store_past_gpg (info : agent_data_t) (rest : List Char) : Except fault agent_data_t :=
  match rest with
  | [] => .ok info
  | [b] => .ok { info with first_run := b != NUL }
  | _ => .error .undefined

/-- Function `strcpy(info->sock, src)` and `strcpy(info->gpg, src)`: the
bytes of `src` and then the terminator are stored one after the other from
the start of the array, with no bound.  Bytes that find no room in the array
land in the fields that follow it in the record (`gpg` follows `sock`,
`first_run` follows `gpg`); bytes past `first_run` fall on alignment padding,
on the pointer `next` of the node and on the heap, which is `undefined`. -/
def strcpy (info : agent_data_t) (dst : field) (src : List Char) :
    Except fault agent_data_t :=
  match dst with
  | .sock =>
    let s := store_bytes (src ++ [NUL]) info.sock
    let g := store_bytes s.2 info.gpg
    store_past_gpg { info with sock := s.1, gpg := g.1 } g.2
  | .gpg =>
    let g := store_bytes (src ++ [NUL]) info.gpg
    store_past_gpg { info with gpg := g.1 } g.2

/-! ## The announcement parser -/

/-- Function `parse_agentdata_line(val, info)`. -/
def parse_agentdata_line (val : List Char) (info : agent_data_t) :
    Except fault agent_data_t :=
  -- eol = strchr(val, ';'); if (eol) *eol = '\0';
  let val1 := match strchr val ';' with
    | some eol => val.take eol
    | none => val
  -- if (strchr(val, '=') == NULL) return;
  match strchr val1 '=' with
  | none => .ok info
  | some i =>
    -- var = strsep(&val, "=");
    let var := val1.take i
    let val2 := val1.drop (i + 1)
    if var = "SSH_AUTH_SOCK".toList then strcpy info .sock val2
    else if var = "SSH_AGENT_PID".toList then .ok { info with pid := atoi val2 }
    else if var = "GPG_AGENT_INFO".toList then strcpy info .gpg val2
    else .ok info

/-- The `while (l < &b[bytes_r])` loop of `parse_agentdata`; `l` is the part
of the buffer from the pointer `l` to `&b[bytes_r]`.  Every round consumes
at least the newline, so `fuel = bytes_r` rounds are never exceeded. -/
def parse_lines : Nat → List Char → agent_data_t → Except fault agent_data_t
  | 0, _, d => .ok d
  | fuel + 1, l, d =>
    if l = [] then .ok d
    else
      -- nl = strchr(l, '\n'); if (!nl) break;
      match strchr (cstr l) '\n' with
      | none => .ok d
      | some nl =>
        -- *nl = '\0'; parse_agentdata_line(l, data); l = nl + 1;
        match parse_agentdata_line (l.take nl) d with
        | .error e => .error e
        | .ok d1 => parse_lines fuel (l.drop (nl + 1)) d1

/-- Function `parse_agentdata(fd, data)`; `rd` is what the pipe delivers to
the single `read` (`none`: the read fails with -1).  The result is the
return value together with the record. -/
def parse_agentdata (cfg : config) (rd : Option (List Char)) (data : agent_data_t) :
    Except fault (Int × agent_data_t) :=
  match rd with
  | none => .ok (-1, data)
  | some avail =>
    -- bytes_r = read(fd, b, sizeof(b));
    let b := avail.take cfg.BUFSIZ
    if b.length = 0 then .ok (0, data)
    -- b[bytes_r] = '\0';
    else if cfg.BUFSIZ ≤ b.length then .error .undefined
    else
      match parse_lines b.length b data with
      | .error e => .error e
      | .ok d => .ok (0, d)

/-! ## The supervisor -/

/-- What the operating system answers while `start_agent` runs in the
parent: whether `getpwuid` finds an entry with a home directory, whether
`pipe` and `fork` succeed, what the single `read` on the pipe delivers
(`none`: it fails), whether `wait` succeeds, and the wait status.  The
child's side (privilege drop, `execv`) shows only through `output` and
`stat`. -/
structure spawn_t where
  getpwuid : Nat → Bool
  pipe_ok : Bool
  fork_ok : Bool
  output : Option (List Char)
  wait_ok : Bool
  stat : Nat

/-- Function `start_agent(uid, gid, data)`, parent side. -/
def start_agent (cfg : config) (sp : spawn_t) (uid : Nat) (data : agent_data_t) :
    Except fault agent_data_t :=
  if !sp.getpwuid uid then .error .fatal
  else
    -- data->first_run = true;
    let d1 := { data with first_run := true }
    if !sp.pipe_ok then .error .fatal
    else if !sp.fork_ok then .error .fatal
    else
      match parse_agentdata cfg sp.output d1 with
      | .error e => .error e
      | .ok (r, d2) =>
        if r < 0 then .error .fatal
        else if !sp.wait_ok then .error .fatal
        -- if (stat) data->pid = 0;
        else if sp.stat ≠ 0 then .ok { d2 with pid := 0 }
        else .ok d2

/-! ## The accept loop -/

/-- Result of `kill(pid, 0)`: success, failure with `ESRCH`, failure with
another `errno`. -/
inductive probe where
  | alive
  | esrch
  | other
deriving DecidableEq, Repr

/-- What the operating system answers while one accepted connection is
handled. -/
structure conn_t where
  accept_ok : Bool
  peercred_ok : Bool
  uid : Nat
  gid : Nat
  kill0 : Int → probe
  calloc_ok : Bool
  spawn : spawn_t
  write_ok : Bool

/-- What one round of the accept loop did: the registry afterwards, the
records written to the client, the number of calls of `start_agent`, and
the fault that ended the daemon, if any. -/
structure outcome where
  agents : List agent_info_t
  written : List agent_data_t
  spawns : Nat
  exit : Option fault
deriving DecidableEq, Repr

/-- A record as `calloc` returns it. -/
def calloc (cap : Nat) : agent_data_t :=
  { status := 0, type := 0, pid := 0,
    sock := List.replicate cap NUL, gpg := List.replicate cap NUL, first_run := false }

/-- The lookup loop `while (node) { if (node->uid == cred.uid) break; ... }`. -/
def find_node : List agent_info_t → Nat → Option agent_info_t
  | [], _ => none
  | n :: ns, uid => if n.uid = uid then some n else find_node ns uid

/-- Store `d` through the pointer `node` that `find_node` returned for `uid`. -/
def set_node : List agent_info_t → Nat → agent_data_t → List agent_info_t
  | [], _, _ => []
  | n :: ns, uid, d => if n.uid = uid then { n with d := d } :: ns else n :: set_node ns uid d

/-- The `if (node->d.pid) { write(...); node->d.first_run = false; }` part
of the loop body; `d` is `node->d`. -/
def reply (c : conn_t) (agents : List agent_info_t) (d : agent_data_t) (spawns : Nat) :
    outcome :=
  if d.pid ≠ 0 then
    if c.write_ok then
      ⟨set_node agents c.uid { d with first_run := false }, [d], spawns, none⟩
    else ⟨agents, [], spawns, some .fatal⟩
  else ⟨agents, [], spawns, none⟩

/-- The call `start_agent(cred.uid, cred.gid, &node->d)` followed by the
reply; `d` is `node->d` before the call.  A value that outgrows its array
but stays inside the record does not end the round: the bytes are stored
where they land and the reply is written from the record as it then is.
The round ends without a reply only when `start_agent` calls `err`, or
when a store leaves the record or the read buffer, where the embedding
cannot follow the run. -/
def respawn (cfg : config) (c : conn_t) (agents : List agent_info_t) (d : agent_data_t) :
    outcome :=
  match start_agent cfg c.spawn c.uid d with
  | .error e => ⟨agents, [], 1, some e⟩
  | .ok d1 => reply c (set_node agents c.uid d1) d1 1

/-- One round of the `while (true)` loop of `main`, from `accept4` to
`close(cfd)`.  The test `!node || node->d.pid == 0 || kill(node->d.pid, 0) < 0`
and the branches under it are spelled out case by case: no node, a node
without process id, and a node whose process is probed. -/
def handle (cfg : config) (c : conn_t) (agents : List agent_info_t) : outcome :=
  if !c.accept_ok then ⟨agents, [], 0, some .fatal⟩
  else if !c.peercred_ok then ⟨agents, [], 0, some .fatal⟩
  -- if (uid != 0 && uid != cred.uid) goto done;
  else if cfg.uid ≠ 0 ∧ cfg.uid ≠ c.uid then ⟨agents, [], 0, none⟩
  else
    match find_node agents c.uid with
    | none =>
      -- node = calloc(...); node->uid = cred.uid; node->next = agents; agents = node;
      if !c.calloc_ok then ⟨agents, [], 0, some .undefined⟩
      else respawn cfg c (⟨c.uid, calloc cfg.cap⟩ :: agents) (calloc cfg.cap)
    | some node =>
      if node.d.pid = 0 then respawn cfg c agents node.d
      else
        match c.kill0 node.d.pid with
        | .alive => reply c agents node.d 0
        -- if (errno != ESRCH) err(...)
        | .other => ⟨agents, [], 0, some .fatal⟩
        | .esrch => respawn cfg c agents node.d

/-- The accept loop over a sequence of connections: the outcome of every
round, up to and including the round in which the daemon exits. -/
def serve (cfg : config) : List conn_t → List agent_info_t → List outcome
  | [], _ => []
  | c :: cs, agents =>
    let o := handle cfg c agents
    o :: (if o.exit.isSome then [] else serve cfg cs o.agents)

/-- The registry after the accept loop has served a sequence of connections. -/
def final_agents (cfg : config) : List conn_t → List agent_info_t → List agent_info_t
  | [], agents => agents
  | c :: cs, agents =>
    let o := handle cfg c agents
    if o.exit.isSome then o.agents else final_agents cfg cs o.agents

/-- Total number of calls of `start_agent` over a run of the accept loop. -/
def total_spawns (os : List outcome) : Nat := (os.map (fun o => o.spawns)).sum

/-! ## Teardown -/

/-- The `while (agents)` loop of `cleanup`, run for at most `fuel` rounds;
the second component collects the process ids passed to
`kill(pid, SIGTERM)`.  The result is `none` when the loop is still running
after `fuel` rounds. -/
def cleanup : Nat → List agent_info_t → List Int → Option (List agent_info_t × List Int)
  | 0, _, _ => none
  | _ + 1, [], sent => some ([], sent)
  | fuel + 1, a :: next, sent =>
    -- if (agents->d.pid <= 0) continue;
    if a.d.pid ≤ 0 then cleanup fuel (a :: next) sent
    -- kill(agents->d.pid, SIGTERM); agents = agents->next;
    else cleanup fuel next (sent ++ [a.d.pid])

/-- Function `sighandler` for `SIGINT` and `SIGTERM`: the signals sent
before `exit`, or `none` when `exit` is not reached within `fuel` rounds. -/
def sighandler (fuel : Nat) (sd_activated : Bool) (agents : List agent_info_t) :
    Option (List Int) :=
  if !sd_activated then (cleanup fuel agents []).map (fun r => r.2)
  else some []

/-! ## Announcements -/

/-- One line of an announcement, without its newline: `var=value`, followed
by `rest`, which is empty or starts with `;`. -/
structure ann_line where
  var : List Char
  value : List Char
  rest : List Char
deriving DecidableEq, Repr

/-- The characters of a line. -/
def ann_line.text (a : ann_line) : List Char := a.var ++ '=' :: (a.value ++ a.rest)

/-- The shape `VARNAME=value`, optionally followed by `;` and an annotation:
the name holds no `=` and no `;`, the value no `;`, what follows the value
is nothing or starts with `;`, and the line holds neither a newline nor a
NUL byte. -/
def ann_line.shaped (a : ann_line) : Prop :=
  '=' ∉ a.var ∧ ';' ∉ a.var ∧ ';' ∉ a.value ∧
    (a.rest = [] ∨ a.rest.head? = some ';') ∧
    '\n' ∉ a.text ∧ NUL ∉ a.text

instance (a : ann_line) : Decidable a.shaped := by
  unfold ann_line.shaped; infer_instance

/-- The text of an announcement: its lines, each ended by a newline. -/
def announcement : List ann_line → List Char
  | [] => []
  | a :: ls => a.text ++ '\n' :: announcement ls

/-- The value of the last line whose name is `name`, if there is one. -/
def last_value (name : List Char) : List ann_line → Option (List Char)
  | [] => none
  | a :: ls =>
    match last_value name ls with
    | some v => some v
    | none => if a.var = name then some a.value else none

/-- The number that a string of decimal digits denotes. -/
def decimal_value (v : List Char) : Nat :=
  Nat.ofDigits 10 (v.reverse.map (fun c => c.toNat - '0'.toNat))

/-- What a shaped line does to a record whose arrays have room for the
value. -/
def apply_line (d : agent_data_t) (a : ann_line) : agent_data_t :=
  if a.var = "SSH_AUTH_SOCK".toList then
    { d with sock := a.value ++ NUL :: d.sock.drop (a.value.length + 1) }
  else if a.var = "SSH_AGENT_PID".toList then { d with pid := atoi a.value }
  else if a.var = "GPG_AGENT_INFO".toList then
    { d with gpg := a.value ++ NUL :: d.gpg.drop (a.value.length + 1) }
  else d

/-- The parser applied to the lines of an announcement, one after the
other. -/
def run_lines : List ann_line → agent_data_t → Except fault agent_data_t
  | [], d => .ok d
  | a :: ls, d =>
    match parse_agentdata_line a.text d with
    | .error e => .error e
    | .ok d1 => run_lines ls d1

/-- The text of a line between its first `=` and its first `;`, or the end
of the line when it holds no `;`. -/
def value_text (line : List Char) : List Char :=
  ((line.takeWhile (fun c => c != ';')).dropWhile (fun c => c != '=')).drop 1

/-- A line that names `var` and carries 4096 bytes as its value. -/
def long_line (var : String) : ann_line := ⟨var.toList, List.replicate 4096 'a', []⟩

/-- A line whose annotation alone fills a buffer of 8192 bytes. -/
def wide_line : ann_line := ⟨"SSH_AGENT_PID".toList, "4242".toList, ';' :: List.replicate 8192 ' '⟩

/-- The lines of scenario A. -/
def scenario_a_lines : List ann_line :=
  [⟨"SSH_AUTH_SOCK".toList, "/tmp/a.sock".toList, [';']⟩,
   ⟨"SSH_AGENT_PID".toList, "4242".toList, [';']⟩]

/-- The two codes of a record, which the daemon never stores to. -/
def same_codes (d1 d2 : agent_data_t) : Prop :=
  d2.status = d1.status ∧ d2.type = d1.type

/-- The fields that no shaped line with a fitting value changes. -/
def same_frame (d1 d2 : agent_data_t) : Prop :=
  d2.status = d1.status ∧ d2.type = d1.type ∧ d2.first_run = d1.first_run

/-! ## Invariant of the registry between two rounds -/

/-- Between two rounds every record still has the status code it was
allocated with, and a record with a process id has had `first_run`
cleared. -/
def settled (agents : List agent_info_t) : Prop :=
  ∀ n ∈ agents, n.d.status = 0 ∧ (n.d.pid ≠ 0 → n.d.first_run = false)

/-! ## Worked inputs -/

/-- A daemon run by root, with arrays of 4096 bytes and a read buffer of
8192 bytes. -/
def root_cfg : config := ⟨0, 4096, 8192⟩

/-- A daemon run by user 1000, same sizes. -/
def user_cfg : config := ⟨1000, 4096, 8192⟩

/-- A spawn in which every system call succeeds, the child prints `out` and
`wait` reports the status `stat`. -/
def spawn_of (out : String) (stat : Nat) : spawn_t :=
  ⟨fun _ => true, true, true, some out.toList, true, stat⟩

/-- A connection of user `uid` in which every system call succeeds, the
liveness probe answers `k`, and a spawn, if any, goes as `spawn_of out stat`. -/
def conn_of (uid : Nat) (k : probe) (out : String) (stat : Nat) : conn_t :=
  ⟨true, true, uid, uid, fun _ => k, true, spawn_of out stat, true⟩

/-- The announcement of scenario A. -/
def scenario_a : String := "SSH_AUTH_SOCK=/tmp/a.sock;\nSSH_AGENT_PID=4242;\n"

/-- The record that scenario A writes to the client. -/
def scenario_a_reply : agent_data_t :=
  { status := 0, type := 0, pid := 4242,
    sock := "/tmp/a.sock".toList ++ NUL :: List.replicate 4084 NUL,
    gpg := List.replicate 4096 NUL, first_run := true }

/-- A spawn whose child exits with status 1 (wait status 256) before it
announces anything. -/
def failed_conn (uid : Nat) : conn_t := conn_of uid .alive "" 256

/-- The registry after scenario A: one record, of user 1000, for process
4242. -/
def scenario_a_node : agent_info_t := ⟨1000, { scenario_a_reply with first_run := false }⟩

/-- An agent that announces its socket only. -/
def socket_only : String := "SSH_AUTH_SOCK=/tmp/b.sock; export SSH_AUTH_SOCK;\n"

/-- The lines of a respawned agent that announces socket and process id. -/
def scenario_c_lines : List ann_line :=
  [⟨"SSH_AUTH_SOCK".toList, "/tmp/b.sock".toList, "; export SSH_AUTH_SOCK;".toList⟩,
   ⟨"SSH_AGENT_PID".toList, "4343".toList, "; export SSH_AGENT_PID;".toList⟩]

/-- The connection of scenario C: the probe fails with `ESRCH` and the new
child announces `scenario_c_lines`. -/
def scenario_c_conn : conn_t :=
  ⟨true, true, 1000, 1000, fun _ => .esrch, true,
    ⟨fun _ => true, true, true, some (announcement scenario_c_lines), true, 0⟩, true⟩

/-- The part of a line before its first `;`, the whole line when it holds
none. -/
def before_semicolon (line : List Char) : List Char := line.takeWhile (fun c => c != ';')

/-- The variable name of a line: the text before its first `=`. -/
def var_name (line : List Char) : List Char := line.takeWhile (fun c => c != '=')

/-- The third line that `ssh-agent` prints; it holds no `=`. -/
def echo_line : List Char := "echo Agent pid 4242;".toList

/-- A line that sets a variable the parser does not know. -/
def askpass_line : List Char := "SSH_ASKPASS=/usr/bin/ssh-askpass; export SSH_ASKPASS;".toList

/-- A line that announces the info string of a `gpg-agent`. -/
def gpg_line : ann_line :=
  ⟨"GPG_AGENT_INFO".toList, "/tmp/gpg.sock:77:1".toList, "; export GPG_AGENT_INFO;".toList⟩

/-- A line that announces process id 5. -/
def pid_line : ann_line := ⟨"SSH_AGENT_PID".toList, "5".toList, []⟩

/-- A record whose `gpg` holds an info string and whose `first_run` is set. -/
def gpg_record : agent_data_t :=
  { status := 0, type := 0, pid := 0, sock := List.replicate 4096 NUL,
    gpg := "/tmp/gpg.sock:77:1".toList ++ NUL :: List.replicate 4077 NUL, first_run := true }

/-- A first connection of user 1000 in which every system call succeeds and
the child announces an info string of 4096 bytes, then process id 5, and
exits with status 0. -/
def long_gpg_conn : conn_t :=
  ⟨true, true, 1000, 1000, fun _ => .alive, true,
    ⟨fun _ => true, true, true, some (announcement [long_line "GPG_AGENT_INFO", pid_line]),
      true, 0⟩, true⟩

/-! ## Lemmas on the C library functions -/

theorem strchr_split (p s : List Char) (c : Char) (h : c ∉ p) :
    strchr (p ++ c :: s) c = some p.length := by
  have hm : c ∈ p ++ c :: s := by simp
  simp only [strchr, hm, if_true, List.indexOf_append_of_not_mem h, List.indexOf_cons_self,
    add_zero]

theorem strchr_none (s : List Char) (c : Char) (h : c ∉ s) : strchr s c = none := by
  simp [strchr, h]

theorem cstr_append (p s : List Char) (h : NUL ∉ p) : cstr (p ++ s) = p ++ cstr s := by
  induction p with
  | nil => rfl
  | cons c cs ih =>
    have hc : c ≠ NUL := fun e => h (e ▸ List.mem_cons_self _ _)
    have hcs : NUL ∉ cs := fun e => h (List.mem_cons_of_mem _ e)
    have := ih hcs
    simp only [cstr] at this ⊢
    simp [hc, this]

theorem cstr_terminated (p s : List Char) (h : NUL ∉ p) : cstr (p ++ NUL :: s) = p := by
  rw [cstr_append p _ h]
  simp [cstr]

theorem store_bytes_eq : ∀ (src dst : List Char),
    store_bytes src dst = (src.take dst.length ++ dst.drop src.length, src.drop dst.length) := by
  intro src
  induction src with
  | nil => intro dst; simp [store_bytes]
  | cons c src ih =>
    intro dst
    cases dst with
    | nil => simp [store_bytes]
    | cons x dst => simp [store_bytes, ih dst]

/-- A string with its terminator that fits the array stays in it. -/
theorem store_bytes_fits (src dst : List Char) (h : src.length < dst.length) :
    store_bytes (src ++ [NUL]) dst = (src ++ NUL :: dst.drop (src.length + 1), []) := by
  rw [store_bytes_eq]
  have h1 : (src ++ [NUL]).length ≤ dst.length := by simp; omega
  rw [List.take_of_length_le h1, List.drop_eq_nil_of_le h1]
  simp

/-- A string as long as the array fills it; the terminator finds no room. -/
theorem store_bytes_exact (src dst : List Char) (h : src.length = dst.length) :
    store_bytes (src ++ [NUL]) dst = (src, [NUL]) := by
  rw [store_bytes_eq, ← h, List.take_left, List.drop_left]
  have h1 : dst.length ≤ (src ++ [NUL]).length := by simp; omega
  rw [List.drop_eq_nil_of_le h1]
  simp

theorem strcpy_sock_fits (info : agent_data_t) (src : List Char)
    (h : src.length < info.sock.length) :
    strcpy info .sock src
      = .ok { info with sock := src ++ NUL :: info.sock.drop (src.length + 1) } := by
  simp only [strcpy, store_bytes_fits src info.sock h, store_bytes, store_past_gpg]

theorem strcpy_gpg_fits (info : agent_data_t) (src : List Char)
    (h : src.length < info.gpg.length) :
    strcpy info .gpg src
      = .ok { info with gpg := src ++ NUL :: info.gpg.drop (src.length + 1) } := by
  simp only [strcpy, store_bytes_fits src info.gpg h, store_past_gpg]

/-- A value as long as `sock`: the terminator lands on the first byte of
`gpg`. -/
theorem strcpy_sock_exact (info : agent_data_t) (src : List Char) (x : Char) (g : List Char)
    (h : src.length = info.sock.length) (hg : info.gpg = x :: g) :
    strcpy info .sock src = .ok { info with sock := src, gpg := NUL :: g } := by
  simp only [strcpy, store_bytes_exact src info.sock h, hg, store_bytes, store_past_gpg]

/-- A value as long as `gpg`: the terminator lands on `first_run`. -/
theorem strcpy_gpg_exact (info : agent_data_t) (src : List Char)
    (h : src.length = info.gpg.length) :
    strcpy info .gpg src = .ok { info with gpg := src, first_run := false } := by
  simp only [strcpy, store_bytes_exact src info.gpg h, store_past_gpg]
  simp

theorem digits_value_decimal : ∀ (v : List Char) (acc : Nat),
    (∀ c ∈ v, '0' ≤ c ∧ c ≤ '9') →
      digits_value acc v = acc * 10 ^ v.length + decimal_value v := by
  intro v
  induction v with
  | nil => intro acc _; simp [digits_value, decimal_value]
  | cons c cs ih =>
    intro acc h
    have hc := h c (List.mem_cons_self _ _)
    have hcs := ih (acc * 10 + (c.toNat - 48)) (fun x hx => h x (List.mem_cons_of_mem _ hx))
    have h48 : '0'.toNat = 48 := rfl
    simp only [digits_value, hc, and_self, if_true, hcs, decimal_value, List.reverse_cons,
      List.map_append, List.map_cons, List.map_nil, Nat.ofDigits_append, Nat.ofDigits_singleton,
      List.length_map, List.length_reverse, List.length_cons, h48]
    ring

theorem to_int32_clamp_long (n : Nat) (h : n < 2 ^ 31) : to_int32 (clamp_long n) = n := by
  have h1 : clamp_long (n : Int) = n := by
    unfold clamp_long
    rw [min_eq_left (by omega), max_eq_right (by omega)]
  rw [h1]
  unfold to_int32
  omega

/-- Function `atoi` on a nonempty string of decimal digits below `2 ^ 31`. -/
theorem atoi_decimal (v : List Char) (hne : v ≠ []) (hd : ∀ c ∈ v, '0' ≤ c ∧ c ≤ '9')
    (hlt : decimal_value v < 2 ^ 31) : atoi v = decimal_value v := by
  cases v with
  | nil => exact absurd rfl hne
  | cons c cs =>
    have hc := hd c (List.mem_cons_self _ _)
    have hx : ∀ x : Char, ¬ ('0' ≤ x) → c ≠ x := fun x hx e => hx (e ▸ hc.1)
    have hsp : isspace c = false := by
      simp [isspace, hx ' ' (by decide), hx '\t' (by decide), hx '\n' (by decide),
        hx (Char.ofNat 11) (by decide), hx (Char.ofNat 12) (by decide), hx '\r' (by decide)]
    have hdrop : List.dropWhile isspace (c :: cs) = c :: cs := by
      simp [List.dropWhile, hsp]
    have hval : digits_value 0 (c :: cs) = decimal_value (c :: cs) := by
      rw [digits_value_decimal _ 0 hd]; simp
    unfold atoi
    rw [hdrop]
    split
    · rename_i r heq
      exact absurd (List.cons.inj heq).1 (hx '-' (by decide))
    · rename_i r heq
      exact absurd (List.cons.inj heq).1 (hx '+' (by decide))
    · rw [hval]
      exact to_int32_clamp_long _ hlt

/-! ## Lemmas on the parser -/

/-- A line `var=value` followed by nothing or by `;...` is cut into name and
value, and the name selects the field. -/
theorem parse_agentdata_line_eq (var value rest : List Char) (d : agent_data_t)
    (h1 : '=' ∉ var) (h2 : ';' ∉ var) (h3 : ';' ∉ value)
    (h4 : rest = [] ∨ rest.head? = some ';') :
    parse_agentdata_line (var ++ '=' :: (value ++ rest)) d =
      if var = "SSH_AUTH_SOCK".toList then strcpy d .sock value
      else if var = "SSH_AGENT_PID".toList then .ok { d with pid := atoi value }
      else if var = "GPG_AGENT_INFO".toList then strcpy d .gpg value
      else .ok d := by
  have hcut : (match strchr (var ++ '=' :: (value ++ rest)) ';' with
      | some eol => (var ++ '=' :: (value ++ rest)).take eol
      | none => var ++ '=' :: (value ++ rest)) = var ++ '=' :: value := by
    rcases h4 with h4 | h4
    · subst h4
      have : ';' ∉ var ++ '=' :: (value ++ []) := by
        simp only [List.append_nil, List.mem_append, List.mem_cons, not_or]
        exact ⟨h2, by decide, h3⟩
      rw [strchr_none _ _ this]
      simp
    · cases rest with
      | nil => simp at h4
      | cons r rs =>
        have hr : r = ';' := by simpa using h4
        subst hr
        have hp : ';' ∉ var ++ '=' :: value := by
          simp only [List.mem_append, List.mem_cons, not_or]
          exact ⟨h2, by decide, h3⟩
        have e : var ++ '=' :: (value ++ ';' :: rs) = (var ++ '=' :: value) ++ ';' :: rs := by
          simp
        rw [e, strchr_split _ _ _ hp]
        simp only [List.take_left]
  unfold parse_agentdata_line
  simp only [hcut, strchr_split var value '=' h1, List.take_left]
  have hd : List.drop (var.length + 1) (var ++ '=' :: value) = value := by
    have : var ++ '=' :: value = (var ++ ['=']) ++ value := by simp
    rw [this]
    exact List.drop_left' (by simp)
  rw [hd]

theorem parse_agentdata_line_shaped (a : ann_line) (d : agent_data_t) (h : a.shaped) :
    parse_agentdata_line a.text d =
      if a.var = "SSH_AUTH_SOCK".toList then strcpy d .sock a.value
      else if a.var = "SSH_AGENT_PID".toList then .ok { d with pid := atoi a.value }
      else if a.var = "GPG_AGENT_INFO".toList then strcpy d .gpg a.value
      else .ok d :=
  parse_agentdata_line_eq a.var a.value a.rest d h.1 h.2.1 h.2.2.1 h.2.2.2.1

/-- One round of the loop on a buffer that starts with a line free of
newline and NUL bytes. -/
theorem parse_lines_step (fuel : Nat) (line l : List Char) (d : agent_data_t)
    (hnl : '\n' ∉ line) (hnul : NUL ∉ line) :
    parse_lines (fuel + 1) (line ++ '\n' :: l) d =
      match parse_agentdata_line line d with
      | .error e => .error e
      | .ok d1 => parse_lines fuel l d1 := by
  have hne : line ++ '\n' :: l ≠ [] := by simp
  have hc : cstr (line ++ '\n' :: l) = line ++ '\n' :: cstr l := by
    rw [cstr_append line _ hnul]
    simp [cstr, NUL]
  simp only [parse_lines, hne, if_false, hc, strchr_split line (cstr l) '\n' hnl, List.take_left]
  have hd : List.drop (line.length + 1) (line ++ '\n' :: l) = l := by
    have : line ++ '\n' :: l = (line ++ ['\n']) ++ l := by simp
    rw [this]
    exact List.drop_left' (by simp)
  rw [hd]

theorem apply_line_lengths (d : agent_data_t) (a : ann_line)
    (hs : a.var = "SSH_AUTH_SOCK".toList → a.value.length < d.sock.length)
    (hg : a.var = "GPG_AGENT_INFO".toList → a.value.length < d.gpg.length) :
    (apply_line d a).sock.length = d.sock.length ∧
      (apply_line d a).gpg.length = d.gpg.length := by
  unfold apply_line
  split_ifs with h1 h2 h3
  · have := hs h1
    refine ⟨?_, rfl⟩
    simp only [List.length_append, List.length_cons, List.length_drop]
    omega
  · exact ⟨rfl, rfl⟩
  · have := hg h3
    refine ⟨rfl, ?_⟩
    simp only [List.length_append, List.length_cons, List.length_drop]
    omega
  · exact ⟨rfl, rfl⟩

/-- A shaped line whose value fits is parsed without fault and acts as
`apply_line` says. -/
theorem parse_agentdata_line_apply (a : ann_line) (d : agent_data_t) (h : a.shaped)
    (hs : a.var = "SSH_AUTH_SOCK".toList → a.value.length < d.sock.length)
    (hg : a.var = "GPG_AGENT_INFO".toList → a.value.length < d.gpg.length) :
    parse_agentdata_line a.text d = .ok (apply_line d a) := by
  rw [parse_agentdata_line_shaped a d h]
  unfold apply_line
  split_ifs with h1 h2 h3
  · rw [strcpy_sock_fits _ _ (hs h1)]
  · rfl
  · rw [strcpy_gpg_fits _ _ (hg h3)]
  · rfl

theorem parse_lines_nil (fuel : Nat) (d : agent_data_t) : parse_lines fuel [] d = .ok d := by
  cases fuel <;> simp [parse_lines]

/-- With one round of fuel per line, the loop parses a whole announcement
and acts line by line. -/
theorem parse_lines_announcement (ls : List ann_line) :
    ∀ (fuel : Nat) (d : agent_data_t), ls.length ≤ fuel → (∀ a ∈ ls, a.shaped) →
      (∀ a ∈ ls, a.var = "SSH_AUTH_SOCK".toList → a.value.length < d.sock.length) →
      (∀ a ∈ ls, a.var = "GPG_AGENT_INFO".toList → a.value.length < d.gpg.length) →
      parse_lines fuel (announcement ls) d = .ok (ls.foldl apply_line d) := by
  induction ls with
  | nil => intro fuel d _ _ _ _; exact parse_lines_nil fuel d
  | cons a ls ih =>
    intro fuel d hfuel hshape hs hg
    cases fuel with
    | zero => simp at hfuel
    | succ k =>
      have ha := hshape a (List.mem_cons_self _ _)
      have hsa := hs a (List.mem_cons_self _ _)
      have hga := hg a (List.mem_cons_self _ _)
      have hlen := apply_line_lengths d a hsa hga
      simp only [announcement, List.foldl_cons]
      rw [parse_lines_step k a.text (announcement ls) d ha.2.2.2.2.1 ha.2.2.2.2.2,
        parse_agentdata_line_apply a d ha hsa hga]
      simp only
      apply ih k (apply_line d a) (by simpa using hfuel)
        (fun b hb => hshape b (List.mem_cons_of_mem _ hb))
      · intro b hb hv
        rw [hlen.1]; exact hs b (List.mem_cons_of_mem _ hb) hv
      · intro b hb hv
        rw [hlen.2]; exact hg b (List.mem_cons_of_mem _ hb) hv

theorem length_le_announcement (ls : List ann_line) :
    ls.length ≤ (announcement ls).length := by
  induction ls with
  | nil => simp
  | cons a ls ih =>
    simp only [announcement, List.length_cons, List.length_append]
    omega

/-- Function `parse_agentdata` on an announcement that fits the buffer and
whose values fit the arrays. -/
theorem parse_agentdata_announcement (cfg : config) (ls : List ann_line) (d : agent_data_t)
    (hshape : ∀ a ∈ ls, a.shaped) (hbuf : (announcement ls).length < cfg.BUFSIZ)
    (hs : ∀ a ∈ ls, a.var = "SSH_AUTH_SOCK".toList → a.value.length < d.sock.length)
    (hg : ∀ a ∈ ls, a.var = "GPG_AGENT_INFO".toList → a.value.length < d.gpg.length) :
    parse_agentdata cfg (some (announcement ls)) d = .ok (0, ls.foldl apply_line d) := by
  have htake : (announcement ls).take cfg.BUFSIZ = announcement ls :=
    List.take_of_length_le (le_of_lt hbuf)
  simp only [parse_agentdata, htake]
  split_ifs with h0 h1
  · have hl : ls = [] := by
      have := length_le_announcement ls
      rw [h0] at this
      exact List.length_eq_zero.mp (Nat.le_zero.mp this)
    subst hl
    rfl
  · omega
  · rw [parse_lines_announcement ls _ d (length_le_announcement ls) hshape hs hg]

/-- The record after a sequence of lines, field by field: a field named by
some line holds the value of the last such line, any other field is as
before. -/
theorem foldl_apply_line_spec (ls : List ann_line) :
    ∀ d : agent_data_t, (∀ a ∈ ls, NUL ∉ a.value) →
      (match last_value "SSH_AUTH_SOCK".toList ls with
        | some v => cstr (ls.foldl apply_line d).sock = v
        | none => (ls.foldl apply_line d).sock = d.sock) ∧
      (match last_value "SSH_AGENT_PID".toList ls with
        | some v => (ls.foldl apply_line d).pid = atoi v
        | none => (ls.foldl apply_line d).pid = d.pid) ∧
      (match last_value "GPG_AGENT_INFO".toList ls with
        | some v => cstr (ls.foldl apply_line d).gpg = v
        | none => (ls.foldl apply_line d).gpg = d.gpg) ∧
      same_frame d (ls.foldl apply_line d) := by
  induction ls with
  | nil => intro d _; exact ⟨rfl, rfl, rfl, rfl, rfl, rfl⟩
  | cons a ls ih =>
    intro d hnul
    have hv : NUL ∉ a.value := hnul a (List.mem_cons_self _ _)
    obtain ⟨i1, i2, i3, i4⟩ := ih (apply_line d a) (fun b hb => hnul b (List.mem_cons_of_mem _ hb))
    have hframe : same_frame d (apply_line d a) := by
      unfold apply_line; split_ifs <;> exact ⟨rfl, rfl, rfl⟩
    simp only [List.foldl_cons, last_value]
    refine ⟨?_, ?_, ?_, ?_⟩
    · cases hl : last_value "SSH_AUTH_SOCK".toList ls with
      | some v =>
        simp only [hl] at i1 ⊢
        exact i1
      | none =>
        simp only [hl] at i1 ⊢
        rw [i1]
        unfold apply_line
        split_ifs with h1 h2 h3
        · exact cstr_terminated _ _ hv
        · rfl
        · rfl
        · rfl
    · cases hl : last_value "SSH_AGENT_PID".toList ls with
      | some v =>
        simp only [hl] at i2 ⊢
        exact i2
      | none =>
        simp only [hl] at i2 ⊢
        rw [i2]
        unfold apply_line
        by_cases h2 : a.var = "SSH_AGENT_PID".toList
        · have h1 : a.var ≠ "SSH_AUTH_SOCK".toList := by rw [h2]; decide
          simp [h1, h2]
        · split_ifs <;> rfl
    · cases hl : last_value "GPG_AGENT_INFO".toList ls with
      | some v =>
        simp only [hl] at i3 ⊢
        exact i3
      | none =>
        simp only [hl] at i3 ⊢
        rw [i3]
        unfold apply_line
        by_cases h3 : a.var = "GPG_AGENT_INFO".toList
        · have h1 : a.var ≠ "SSH_AUTH_SOCK".toList := by rw [h3]; decide
          have h2 : a.var ≠ "SSH_AGENT_PID".toList := by rw [h3]; decide
          simp only [h1, h2, h3, if_false, if_true]
          exact cstr_terminated _ _ hv
        · split_ifs <;> rfl
    · exact ⟨i4.1.trans hframe.1, i4.2.1.trans hframe.2.1, i4.2.2.trans hframe.2.2⟩

theorem takeWhile_ne_of_not_mem (p : List Char) (c : Char) (h : c ∉ p) :
    p.takeWhile (fun x => x != c) = p := by
  induction p with
  | nil => rfl
  | cons x xs ih =>
    have hx : x ≠ c := fun e => h (e ▸ List.mem_cons_self _ _)
    simp [hx, ih (fun e => h (List.mem_cons_of_mem _ e))]

theorem takeWhile_ne_split (p s : List Char) (c : Char) (h : c ∉ p) :
    (p ++ c :: s).takeWhile (fun x => x != c) = p := by
  induction p with
  | nil => simp
  | cons x xs ih =>
    have hx : x ≠ c := fun e => h (e ▸ List.mem_cons_self _ _)
    simp [hx, ih (fun e => h (List.mem_cons_of_mem _ e))]

theorem dropWhile_ne_split (p s : List Char) (c : Char) (h : c ∉ p) :
    (p ++ c :: s).dropWhile (fun x => x != c) = c :: s := by
  induction p with
  | nil => simp
  | cons x xs ih =>
    have hx : x ≠ c := fun e => h (e ▸ List.mem_cons_self _ _)
    simp [hx, ih (fun e => h (List.mem_cons_of_mem _ e))]

/-- In a shaped line the value is the text between the first `=` and the
first `;`, or the end of the line. -/
theorem value_text_shaped (a : ann_line) (h : a.shaped) : value_text a.text = a.value := by
  obtain ⟨h1, h2, h3, h4, -, -⟩ := h
  have hp : ';' ∉ a.var ++ '=' :: a.value := by
    simp only [List.mem_append, List.mem_cons, not_or]
    exact ⟨h2, by decide, h3⟩
  have hcut : a.text.takeWhile (fun c => c != ';') = a.var ++ '=' :: a.value := by
    unfold ann_line.text
    rcases h4 with h4 | h4
    · rw [h4, List.append_nil]
      exact takeWhile_ne_of_not_mem _ _ hp
    · cases hr : a.rest with
      | nil => rw [List.append_nil]; exact takeWhile_ne_of_not_mem _ _ hp
      | cons r rs =>
        have : r = ';' := by simpa [hr] using h4
        subst this
        have e : a.var ++ '=' :: (a.value ++ ';' :: rs) = (a.var ++ '=' :: a.value) ++ ';' :: rs := by
          simp
        rw [e]
        exact takeWhile_ne_split _ _ _ hp
  unfold value_text
  rw [hcut, dropWhile_ne_split _ _ _ h1]
  rfl

theorem parse_lines_run (ls : List ann_line) :
    ∀ (fuel : Nat) (d : agent_data_t), ls.length ≤ fuel → (∀ a ∈ ls, a.shaped) →
      parse_lines fuel (announcement ls) d = run_lines ls d := by
  induction ls with
  | nil => intro fuel d _ _; exact parse_lines_nil fuel d
  | cons a ls ih =>
    intro fuel d hfuel hshape
    cases fuel with
    | zero => simp at hfuel
    | succ k =>
      have ha := hshape a (List.mem_cons_self _ _)
      simp only [announcement, run_lines]
      rw [parse_lines_step k a.text (announcement ls) d ha.2.2.2.2.1 ha.2.2.2.2.2]
      cases parse_agentdata_line a.text d with
      | error e => rfl
      | ok d1 =>
        exact ih k d1 (by simpa using hfuel) (fun b hb => hshape b (List.mem_cons_of_mem _ hb))

/-- Function `parse_agentdata` on an announcement that fits the buffer,
whatever the length of its values. -/
theorem parse_agentdata_run (cfg : config) (ls : List ann_line) (d : agent_data_t)
    (hshape : ∀ a ∈ ls, a.shaped) (hbuf : (announcement ls).length < cfg.BUFSIZ) :
    parse_agentdata cfg (some (announcement ls)) d =
      match run_lines ls d with
      | .error e => .error e
      | .ok d1 => .ok (0, d1) := by
  have htake : (announcement ls).take cfg.BUFSIZ = announcement ls :=
    List.take_of_length_le (le_of_lt hbuf)
  simp only [parse_agentdata, htake]
  split_ifs with h0 h1
  · have hl : ls = [] := by
      have := length_le_announcement ls
      rw [h0] at this
      exact List.length_eq_zero.mp (Nat.le_zero.mp this)
    subst hl
    rfl
  · omega
  · rw [parse_lines_run ls _ d (length_le_announcement ls) hshape]

/-- A text that fills the whole buffer: the terminator is stored past its
end. -/
theorem parse_agentdata_full_buffer (cfg : config) (avail : List Char) (d : agent_data_t)
    (hpos : 0 < cfg.BUFSIZ) (hlen : cfg.BUFSIZ ≤ avail.length) :
    parse_agentdata cfg (some avail) d = .error .undefined := by
  have h : (avail.take cfg.BUFSIZ).length = cfg.BUFSIZ := by
    rw [List.length_take]; omega
  simp only [parse_agentdata, h]
  rw [if_neg (by omega), if_pos (le_refl _)]

theorem calloc_lengths (cap : Nat) :
    (calloc cap).sock.length = cap ∧ (calloc cap).gpg.length = cap :=
  ⟨List.length_replicate _ _, List.length_replicate _ _⟩

theorem long_line_value_length (var : String) : (long_line var).value.length = 4096 :=
  List.length_replicate _ _

theorem long_line_text_length (var : String) :
    (long_line var).text.length = var.toList.length + 4097 := by
  simp only [ann_line.text, long_line, List.length_append, List.length_cons,
    List.length_replicate, List.length_nil]

theorem long_line_shaped (var : String) (h1 : '=' ∉ var.toList) (h2 : ';' ∉ var.toList)
    (h3 : '\n' ∉ var.toList) (h4 : NUL ∉ var.toList) : (long_line var).shaped := by
  refine ⟨h1, h2, ?_, Or.inl rfl, ?_, ?_⟩
  · intro hm
    exact absurd (List.eq_of_mem_replicate hm) (by decide)
  · simp only [ann_line.text, long_line, List.append_nil, List.mem_append, List.mem_cons,
      List.mem_replicate, not_or]
    exact ⟨h3, by decide, by decide⟩
  · simp only [ann_line.text, long_line, List.append_nil, List.mem_append, List.mem_cons,
      List.mem_replicate, not_or]
    exact ⟨h4, by decide, by decide⟩

/-! ## Lemmas on lines that name no field -/

theorem take_indexOf (l : List Char) (c : Char) :
    l.take (l.indexOf c) = l.takeWhile (fun x => x != c) := by
  induction l with
  | nil => rfl
  | cons x xs ih =>
    by_cases hx : x = c
    · subst hx
      simp [List.indexOf_cons_self]
    · rw [List.indexOf_cons_ne _ hx]
      simp [hx, ih]

/-- What `strchr` and the cut at its result leave of a string. -/
theorem strchr_cut (l : List Char) (c : Char) :
    (match strchr l c with
      | some i => l.take i
      | none => l) = l.takeWhile (fun x => x != c) := by
  unfold strchr
  by_cases h : c ∈ l
  · simp only [h, if_true]
    exact take_indexOf l c
  · simp only [h, if_false]
    exact (takeWhile_ne_of_not_mem l c h).symm

theorem strchr_some_take (l : List Char) (c : Char) (i : Nat) (h : strchr l c = some i) :
    c ∈ l ∧ l.take i = l.takeWhile (fun x => x != c) := by
  unfold strchr at h
  by_cases hm : c ∈ l
  · simp only [hm, if_true, Option.some.injEq] at h
    rw [← h]
    exact ⟨hm, take_indexOf l c⟩
  · simp [hm] at h

theorem takeWhile_takeWhile_of_mem (l : List Char) (c e : Char)
    (h : e ∈ l.takeWhile (fun x => x != c)) :
    (l.takeWhile (fun x => x != c)).takeWhile (fun x => x != e)
      = l.takeWhile (fun x => x != e) := by
  induction l with
  | nil => rfl
  | cons x xs ih =>
    by_cases hx : x = c
    · subst hx
      simp at h
    · have e1 : List.takeWhile (fun y => y != c) (x :: xs)
          = x :: List.takeWhile (fun y => y != c) xs := by simp [hx]
      rw [e1] at h ⊢
      by_cases he : x = e
      · subst he
        simp
      · have e2 : ∀ t : List Char, List.takeWhile (fun y => y != e) (x :: t)
            = x :: List.takeWhile (fun y => y != e) t := by
          intro t; simp [he]
        have hm : e ∈ xs.takeWhile (fun y => y != c) := by
          rcases List.mem_cons.mp h with h1 | h1
          · exact absurd h1.symm he
          · exact h1
        rw [e2, e2, ih hm]

/-- The name that `parse_agentdata_line` compares, when the line holds a
`=` before its first `;`, is the text before the first `=` of the line. -/
theorem var_name_before_semicolon (val : List Char) (h : '=' ∈ before_semicolon val) :
    (before_semicolon val).takeWhile (fun c => c != '=') = var_name val :=
  takeWhile_takeWhile_of_mem val ';' '=' h

/-! ## Frame lemmas on the parser and the supervisor -/

theorem strcpy_codes (d d1 : agent_data_t) (f : field) (src : List Char)
    (h : strcpy d f src = .ok d1) : same_codes d d1 := by
  cases f <;>
  · simp only [strcpy, store_past_gpg] at h
    split at h
    · cases h; exact ⟨rfl, rfl⟩
    · cases h; exact ⟨rfl, rfl⟩
    · cases h

theorem parse_agentdata_line_frame (val : List Char) (d d1 : agent_data_t)
    (h : parse_agentdata_line val d = .ok d1) : same_codes d d1 := by
  unfold parse_agentdata_line at h
  simp only at h
  split at h
  · cases h; exact ⟨rfl, rfl⟩
  · split_ifs at h
    · exact strcpy_codes _ _ _ _ h
    · cases h; exact ⟨rfl, rfl⟩
    · exact strcpy_codes _ _ _ _ h
    · cases h; exact ⟨rfl, rfl⟩

theorem parse_lines_frame (fuel : Nat) :
    ∀ (l : List Char) (d d1 : agent_data_t), parse_lines fuel l d = .ok d1 → same_codes d d1 := by
  induction fuel with
  | zero =>
    intro l d d1 h
    simp only [parse_lines] at h
    cases h; exact ⟨rfl, rfl⟩
  | succ k ih =>
    intro l d d1 h
    simp only [parse_lines] at h
    split_ifs at h
    · cases h; exact ⟨rfl, rfl⟩
    · split at h
      · cases h; exact ⟨rfl, rfl⟩
      · split at h
        · cases h
        · rename_i d2 hline
          have f1 := parse_agentdata_line_frame _ _ _ hline
          have f2 := ih _ _ _ h
          exact ⟨f2.1.trans f1.1, f2.2.trans f1.2⟩

theorem parse_agentdata_frame (cfg : config) (rd : Option (List Char)) (d d1 : agent_data_t)
    (r : Int) (h : parse_agentdata cfg rd d = .ok (r, d1)) : same_codes d d1 := by
  unfold parse_agentdata at h
  split at h
  · cases h; exact ⟨rfl, rfl⟩
  · simp only at h
    split_ifs at h
    · cases h; exact ⟨rfl, rfl⟩
    · split at h
      · cases h
      · rename_i d2 hl
        cases h
        exact parse_lines_frame _ _ _ _ hl

/-- After a call of `start_agent` that returns, the status and kind codes
are what they were, and a nonzero wait status has cleared the process id. -/
theorem start_agent_ok (cfg : config) (sp : spawn_t) (uid : Nat) (d d1 : agent_data_t)
    (h : start_agent cfg sp uid d = .ok d1) :
    d1.status = d.status ∧ d1.type = d.type ∧ (sp.stat ≠ 0 → d1.pid = 0) := by
  cases hp : parse_agentdata cfg sp.output { d with first_run := true } with
  | error e =>
    simp only [start_agent, hp] at h
    split_ifs at h
  | ok rd =>
    obtain ⟨r, d2⟩ := rd
    have f := parse_agentdata_frame _ _ _ _ _ hp
    simp only [start_agent, hp] at h
    split_ifs at h with h1 h2 h3 h4 h5 h6
    · cases h
      exact ⟨f.1, f.2, fun _ => rfl⟩
    · cases h
      exact ⟨f.1, f.2, fun hs => absurd hs h6⟩

/-- A spawn in which every system call succeeds, the child announces shaped
lines that fit and `wait` reports status 0. -/
theorem start_agent_announcement (cfg : config) (sp : spawn_t) (uid : Nat) (d : agent_data_t)
    (ls : List ann_line) (h1 : sp.getpwuid uid = true) (h2 : sp.pipe_ok = true)
    (h3 : sp.fork_ok = true) (h4 : sp.wait_ok = true)
    (hout : sp.output = some (announcement ls)) (hstat : sp.stat = 0)
    (hshape : ∀ a ∈ ls, a.shaped) (hbuf : (announcement ls).length < cfg.BUFSIZ)
    (hs : ∀ a ∈ ls, a.var = "SSH_AUTH_SOCK".toList → a.value.length < d.sock.length)
    (hg : ∀ a ∈ ls, a.var = "GPG_AGENT_INFO".toList → a.value.length < d.gpg.length) :
    start_agent cfg sp uid d = .ok (ls.foldl apply_line { d with first_run := true }) := by
  have hp := parse_agentdata_announcement cfg ls { d with first_run := true } hshape hbuf hs hg
  simp only [start_agent, h1, h2, h3, h4, hout, hstat, hp]
  simp

/-! ## Lemmas on the registry -/

theorem set_node_uids (agents : List agent_info_t) (uid : Nat) (d : agent_data_t) :
    (set_node agents uid d).map (fun n => n.uid) = agents.map (fun n => n.uid) := by
  induction agents with
  | nil => rfl
  | cons n ns ih =>
    unfold set_node
    by_cases h : n.uid = uid
    · simp [h]
    · simp [h, ih]

theorem find_node_none_iff (agents : List agent_info_t) (uid : Nat) :
    find_node agents uid = none ↔ uid ∉ agents.map (fun n => n.uid) := by
  induction agents with
  | nil => simp [find_node]
  | cons n ns ih =>
    unfold find_node
    by_cases h : n.uid = uid
    · simp [h]
    · simp only [h, if_false, ih, List.map_cons, List.mem_cons, not_or]
      constructor
      · intro hn
        exact ⟨fun e => h e.symm, hn⟩
      · intro hn
        exact hn.2

theorem reply_uids (c : conn_t) (agents : List agent_info_t) (d : agent_data_t) (k : Nat) :
    (reply c agents d k).agents.map (fun n => n.uid) = agents.map (fun n => n.uid) := by
  unfold reply
  split_ifs <;> simp [set_node_uids]

theorem respawn_uids (cfg : config) (c : conn_t) (agents : List agent_info_t)
    (d : agent_data_t) :
    (respawn cfg c agents d).agents.map (fun n => n.uid) = agents.map (fun n => n.uid) := by
  unfold respawn
  split
  · rfl
  · rw [reply_uids, set_node_uids]

/-- One round either keeps the list of owners or, after a failed lookup,
puts the peer's uid in front of it. -/
theorem handle_uids (cfg : config) (c : conn_t) (agents : List agent_info_t) :
    (handle cfg c agents).agents.map (fun n => n.uid) = agents.map (fun n => n.uid) ∨
      (find_node agents c.uid = none ∧
        (handle cfg c agents).agents.map (fun n => n.uid)
          = c.uid :: agents.map (fun n => n.uid)) := by
  cases hf : find_node agents c.uid with
  | none =>
    simp only [handle, hf]
    split_ifs <;>
      first
      | exact Or.inl rfl
      | exact Or.inr ⟨trivial, by rw [respawn_uids]; rfl⟩
  | some node =>
    simp only [handle, hf]
    cases hk : c.kill0 node.d.pid <;> simp only [] <;> split_ifs <;>
      first
      | exact Or.inl rfl
      | exact Or.inl (respawn_uids _ _ _ _)
      | exact Or.inl (reply_uids _ _ _ _)

theorem handle_nodup (cfg : config) (c : conn_t) (agents : List agent_info_t)
    (h : (agents.map (fun n => n.uid)).Nodup) :
    ((handle cfg c agents).agents.map (fun n => n.uid)).Nodup := by
  rcases handle_uids cfg c agents with e | ⟨hnone, e⟩
  · rw [e]; exact h
  · rw [e]
    exact List.nodup_cons.mpr ⟨(find_node_none_iff agents c.uid).mp hnone, h⟩

theorem final_agents_nodup (cfg : config) (cs : List conn_t) :
    ∀ agents : List agent_info_t, (agents.map (fun n => n.uid)).Nodup →
      ((final_agents cfg cs agents).map (fun n => n.uid)).Nodup := by
  induction cs with
  | nil => intro agents h; exact h
  | cons c cs ih =>
    intro agents h
    have hn := handle_nodup cfg c agents h
    simp only [final_agents]
    split_ifs
    · exact hn
    · exact ih _ hn

theorem find_node_uid (agents : List agent_info_t) (uid : Nat) (node : agent_info_t)
    (h : find_node agents uid = some node) : node.uid = uid := by
  induction agents with
  | nil => simp [find_node] at h
  | cons n ns ih =>
    unfold find_node at h
    by_cases hn : n.uid = uid
    · simp only [hn, if_true, Option.some.injEq] at h
      rw [← h]; exact hn
    · simp only [hn, if_false] at h
      exact ih h

theorem find_node_set_node (agents : List agent_info_t) (uid : Nat) (node : agent_info_t)
    (d : agent_data_t) (h : find_node agents uid = some node) :
    find_node (set_node agents uid d) uid = some { node with d := d } := by
  induction agents with
  | nil => simp [find_node] at h
  | cons n ns ih =>
    unfold find_node at h
    unfold set_node
    by_cases hn : n.uid = uid
    · simp only [hn, if_true, Option.some.injEq] at h
      subst h
      simp only [hn, if_true]
      unfold find_node
      simp [hn]
    · simp only [hn, if_false] at h
      simp only [hn, if_false]
      unfold find_node
      simp only [hn, if_false]
      exact ih h

/-- A round that finds a record with a live process: no spawn, the record
is what is written, and the process id stays. -/
theorem handle_alive (cfg : config) (c : conn_t) (agents : List agent_info_t)
    (node : agent_info_t) (hf : find_node agents c.uid = some node)
    (hp : node.d.pid ≠ 0) (hk : c.kill0 node.d.pid = .alive) :
    (handle cfg c agents).spawns = 0 ∧
      (∀ r ∈ (handle cfg c agents).written, r = node.d) ∧
      (find_node (handle cfg c agents).agents c.uid).map (fun n => n.d.pid)
        = some node.d.pid := by
  simp only [handle, hf, hk, hp, if_false, reply, ne_eq, not_false_eq_true, if_true]
  split_ifs <;>
    simp [hf, find_node_set_node agents c.uid node _ hf]

/-- The same round when the peer is admitted and the system calls succeed. -/
theorem handle_alive_written (cfg : config) (c : conn_t) (agents : List agent_info_t)
    (node : agent_info_t) (hacc : c.accept_ok = true) (hcred : c.peercred_ok = true)
    (hauth : cfg.uid = 0 ∨ cfg.uid = c.uid)
    (hf : find_node agents c.uid = some node)
    (hp : node.d.pid ≠ 0) (hk : c.kill0 node.d.pid = .alive) :
    (handle cfg c agents).written = if c.write_ok then [node.d] else [] := by
  have h3 : ¬ (cfg.uid ≠ 0 ∧ cfg.uid ≠ c.uid) := by
    rintro ⟨h0, h1⟩
    rcases hauth with h | h
    · exact h0 h
    · exact h1 h
  simp only [handle, hacc, hcred, h3, hf, hk, hp, if_false, reply, ne_eq, not_false_eq_true,
    if_true, Bool.not_true, Bool.false_eq_true]
  split_ifs <;> rfl

/-- A round that turns a failed lookup into a record has called
`start_agent` once. -/
theorem handle_first_spawn (cfg : config) (c : conn_t) (agents : List agent_info_t)
    (hf : find_node agents c.uid = none)
    (hpost : find_node (handle cfg c agents).agents c.uid ≠ none) :
    (handle cfg c agents).spawns = 1 := by
  revert hpost
  simp only [handle, hf]
  split_ifs <;> intro hpost
  · exact absurd hf hpost
  · exact absurd hf hpost
  · exact absurd hf hpost
  · exact absurd hf hpost
  · unfold respawn
    split
    · rfl
    · unfold reply
      split_ifs <;> rfl

/-- While the tracked process answers the probe, further connections of
the same user spawn nothing. -/
theorem serve_alive_no_spawn (cfg : config) (uid : Nat) (p : Int) (hp : p ≠ 0)
    (cs : List conn_t) :
    ∀ agents : List agent_info_t,
      (find_node agents uid).map (fun n => n.d.pid) = some p →
      (∀ c ∈ cs, c.uid = uid ∧ c.kill0 p = .alive) →
      total_spawns (serve cfg cs agents) = 0 := by
  induction cs with
  | nil => intro agents _ _; rfl
  | cons c cs ih =>
    intro agents hf hall
    obtain ⟨hu, hk⟩ := hall c (List.mem_cons_self _ _)
    cases hn : find_node agents uid with
    | none => simp [hn] at hf
    | some node =>
      have hpid : node.d.pid = p := by simpa [hn] using hf
      subst hu
      have h := handle_alive cfg c agents node hn (by rw [hpid]; exact hp) (by rw [hpid]; exact hk)
      simp only [serve, total_spawns, List.map_cons, List.sum_cons, h.1, zero_add]
      split_ifs
      · rfl
      · have := ih (handle cfg c agents).agents (by rw [h.2.2, hpid])
          (fun c' hc' => hall c' (List.mem_cons_of_mem _ hc'))
        simpa [total_spawns] using this

/-! ## The invariant `settled` -/

theorem find_node_mem (agents : List agent_info_t) (uid : Nat) (node : agent_info_t)
    (h : find_node agents uid = some node) : node ∈ agents := by
  induction agents with
  | nil => simp [find_node] at h
  | cons n ns ih =>
    unfold find_node at h
    by_cases hn : n.uid = uid
    · simp only [hn, if_true, Option.some.injEq] at h
      rw [← h]; exact List.mem_cons_self _ _
    · simp only [hn, if_false] at h
      exact List.mem_cons_of_mem _ (ih h)

theorem mem_set_node (agents : List agent_info_t) (uid : Nat) (d : agent_data_t)
    (m : agent_info_t) (h : m ∈ set_node agents uid d) : m ∈ agents ∨ m.d = d := by
  induction agents with
  | nil => simp [set_node] at h
  | cons n ns ih =>
    unfold set_node at h
    by_cases hn : n.uid = uid
    · simp only [hn, if_true, List.mem_cons] at h
      rcases h with h | h
      · right; rw [h]
      · left; exact List.mem_cons_of_mem _ h
    · simp only [hn, if_false, List.mem_cons] at h
      rcases h with h | h
      · left; rw [h]; exact List.mem_cons_self _ _
      · rcases ih h with h1 | h1
        · left; exact List.mem_cons_of_mem _ h1
        · right; exact h1

theorem set_node_set_node (agents : List agent_info_t) (uid : Nat) (d1 d2 : agent_data_t) :
    set_node (set_node agents uid d1) uid d2 = set_node agents uid d2 := by
  induction agents with
  | nil => rfl
  | cons n ns ih =>
    by_cases hn : n.uid = uid
    · simp [set_node, hn]
    · simp [set_node, hn, ih]

theorem settled_set_node (agents : List agent_info_t) (uid : Nat) (d : agent_data_t)
    (h : settled agents) (hs : d.status = 0) (hf : d.pid ≠ 0 → d.first_run = false) :
    settled (set_node agents uid d) := by
  intro m hm
  rcases mem_set_node agents uid d m hm with h1 | h1
  · exact h m h1
  · rw [h1]; exact ⟨hs, hf⟩

/-- The reply for a record that was not respawned in this round. -/
theorem reply_settled (c : conn_t) (agents : List agent_info_t) (node : agent_info_t)
    (h : settled agents) (hm : node ∈ agents) :
    (∀ r ∈ (reply c agents node.d 0).written, r.status = 0 ∧ r.first_run = false) ∧
      (reply c agents node.d 0).spawns = 0 ∧ settled (reply c agents node.d 0).agents := by
  have hn := h node hm
  unfold reply
  split_ifs with hp hw
  · refine ⟨?_, rfl, settled_set_node _ _ _ h hn.1 (fun _ => rfl)⟩
    intro r hr
    simp only [List.mem_singleton] at hr
    rw [hr]; exact ⟨hn.1, hn.2 hp⟩
  · exact ⟨by simp, rfl, h⟩
  · exact ⟨by simp, rfl, h⟩

/-- A round that calls `start_agent`. -/
theorem respawn_settled (cfg : config) (c : conn_t) (agents : List agent_info_t)
    (d : agent_data_t) (h : settled agents) (hd : d.status = 0) :
    (∀ r ∈ (respawn cfg c agents d).written, r.status = 0) ∧
      (respawn cfg c agents d).spawns = 1 ∧
      ((respawn cfg c agents d).exit = none → settled (respawn cfg c agents d).agents) := by
  unfold respawn
  cases hs : start_agent cfg c.spawn c.uid d with
  | error e => exact ⟨by simp, rfl, by simp⟩
  | ok d1 =>
    have hok := start_agent_ok cfg c.spawn c.uid d d1 hs
    simp only [reply]
    split_ifs with hp hw
    · refine ⟨?_, rfl, fun _ => ?_⟩
      · intro r hr
        simp only [List.mem_singleton] at hr
        rw [hr]; exact hok.1.trans hd
      · simp only [set_node_set_node]
        exact settled_set_node _ _ _ h (hok.1.trans hd) (fun _ => rfl)
    · exact ⟨by simp, rfl, by simp⟩
    · refine ⟨by simp, rfl, fun _ => ?_⟩
      exact settled_set_node _ _ _ h (hok.1.trans hd) (fun hne => absurd (not_not.mp hp) hne)

theorem settled_cons_calloc (cap uid : Nat) (agents : List agent_info_t) (h : settled agents) :
    settled (⟨uid, calloc cap⟩ :: agents) := by
  intro m hm
  simp only [List.mem_cons] at hm
  rcases hm with hm | hm
  · rw [hm]; exact ⟨rfl, fun hne => absurd rfl hne⟩
  · exact h m hm

/-- One round, started in a settled registry: what is written carries the
allocation status code, `first_run` is set only if `start_agent` ran, and
the registry is settled again unless the daemon exits. -/
theorem handle_settled (cfg : config) (c : conn_t) (agents : List agent_info_t)
    (h : settled agents) :
    (∀ r ∈ (handle cfg c agents).written,
        r.status = 0 ∧ (r.first_run = true → 0 < (handle cfg c agents).spawns)) ∧
      ((handle cfg c agents).exit = none → settled (handle cfg c agents).agents) := by
  cases hf : find_node agents c.uid with
  | none =>
    simp only [handle, hf]
    split_ifs
    · exact ⟨by simp, fun _ => h⟩
    · exact ⟨by simp, fun _ => h⟩
    · exact ⟨by simp, fun _ => h⟩
    · exact ⟨by simp, fun _ => h⟩
    · have hr := respawn_settled cfg c (⟨c.uid, calloc cfg.cap⟩ :: agents) (calloc cfg.cap)
        (settled_cons_calloc _ _ _ h) rfl
      refine ⟨fun r hm => ?_, hr.2.2⟩
      rw [hr.2.1]
      exact ⟨hr.1 r hm, fun _ => Nat.one_pos⟩
  | some node =>
    have hm := find_node_mem agents c.uid node hf
    have hrs := respawn_settled cfg c agents node.d h (h node hm).1
    have hrp := reply_settled c agents node h hm
    have hA : (∀ r ∈ (respawn cfg c agents node.d).written,
        r.status = 0 ∧ (r.first_run = true → 0 < (respawn cfg c agents node.d).spawns)) ∧
        ((respawn cfg c agents node.d).exit = none →
          settled (respawn cfg c agents node.d).agents) := by
      refine ⟨fun r hr => ?_, hrs.2.2⟩
      rw [hrs.2.1]
      exact ⟨hrs.1 r hr, fun _ => Nat.one_pos⟩
    simp only [handle, hf]
    cases hk : c.kill0 node.d.pid <;> simp only [] <;> split_ifs <;>
      first
      | exact ⟨by simp, fun _ => h⟩
      | exact hA
      | (refine ⟨fun r hr => ?_, fun _ => hrp.2.2⟩
         rw [hrp.2.1]
         exact ⟨(hrp.1 r hr).1, by simp [(hrp.1 r hr).2]⟩)

theorem serve_settled (cfg : config) (cs : List conn_t) :
    ∀ agents : List agent_info_t, settled agents →
      ∀ o ∈ serve cfg cs agents, ∀ r ∈ o.written,
        r.status = 0 ∧ (r.first_run = true → 0 < o.spawns) := by
  induction cs with
  | nil => intro agents _ o ho; simp [serve] at ho
  | cons c cs ih =>
    intro agents h o ho
    have hh := handle_settled cfg c agents h
    simp only [serve, List.mem_cons] at ho
    rcases ho with ho | ho
    · rw [ho]; exact hh.1
    · split_ifs at ho with hx
      · simp at ho
      · have hnone : (handle cfg c agents).exit = none := by
          cases he : (handle cfg c agents).exit with
          | none => rfl
          | some e => simp [he] at hx
        exact ih _ (hh.2 hnone) o ho

theorem settled_nil : settled [] := by
  intro n hn
  simp at hn

/-! ## Lemmas on teardown -/

/-- Once the scan stands on a record without a positive process id, no
number of rounds ends the loop. -/
theorem cleanup_stuck (a : agent_info_t) (next : List agent_info_t) (h : a.d.pid ≤ 0) :
    ∀ (fuel : Nat) (sent : List Int), cleanup fuel (a :: next) sent = none := by
  intro fuel
  induction fuel with
  | zero => intro sent; rfl
  | succ k ih =>
    intro sent
    unfold cleanup
    simp only [h, if_true]
    exact ih sent

theorem sighandler_stuck (agents : List agent_info_t)
    (h : (agents.head?.map (fun a => decide (a.d.pid ≤ 0))) = some true) (fuel : Nat) :
    sighandler fuel false agents = none := by
  cases agents with
  | nil => simp at h
  | cons a next =>
    have hp : a.d.pid ≤ 0 := by simpa using h
    simp [sighandler, cleanup_stuck a next hp]

/-- When every record has a positive process id the scan ends and has
signalled each of them once, in list order. -/
theorem cleanup_all_positive :
    ∀ (agents : List agent_info_t) (sent : List Int), (∀ a ∈ agents, 0 < a.d.pid) →
      cleanup (agents.length + 1) agents sent = some ([], sent ++ agents.map (fun a => a.d.pid)) := by
  intro agents
  induction agents with
  | nil => intro sent _; simp [cleanup]
  | cons a next ih =>
    intro sent h
    have ha : ¬ a.d.pid ≤ 0 := not_le.mpr (h a (List.mem_cons_self _ _))
    have := ih (sent ++ [a.d.pid]) (fun b hb => h b (List.mem_cons_of_mem _ hb))
    simp only [List.length_cons, cleanup, ha, if_false, this, List.map_cons, List.append_assoc,
      List.singleton_append]

/-! ## Lemmas on a failed spawn -/

theorem respawn_failed (cfg : config) (c : conn_t) (agents : List agent_info_t)
    (d : agent_data_t) (node : agent_info_t) (hf : find_node agents c.uid = some node)
    (hstat : c.spawn.stat ≠ 0) (hex : (respawn cfg c agents d).exit = none) :
    (respawn cfg c agents d).written = [] ∧
      (find_node (respawn cfg c agents d).agents c.uid).map (fun n => n.d.pid) = some 0 := by
  revert hex
  unfold respawn
  cases hs : start_agent cfg c.spawn c.uid d with
  | error e => intro hex; simp at hex
  | ok d1 =>
    have hpid := (start_agent_ok cfg c.spawn c.uid d d1 hs).2.2 hstat
    intro _
    simp only [reply, hpid, ne_eq, not_true_eq_false, if_false]
    rw [find_node_set_node agents c.uid node d1 hf]
    simp [hpid]

/-! ## Lemmas on rounds with an over-long value -/

/-- A spawn in which every system call succeeds, the child announces shaped
lines that fit the buffer and `wait` reports status 0. -/
theorem start_agent_run (cfg : config) (sp : spawn_t) (uid : Nat) (d d1 : agent_data_t)
    (ls : List ann_line) (h1 : sp.getpwuid uid = true) (h2 : sp.pipe_ok = true)
    (h3 : sp.fork_ok = true) (h4 : sp.wait_ok = true)
    (hout : sp.output = some (announcement ls)) (hstat : sp.stat = 0)
    (hshape : ∀ a ∈ ls, a.shaped) (hbuf : (announcement ls).length < cfg.BUFSIZ)
    (hrun : run_lines ls { d with first_run := true } = .ok d1) :
    start_agent cfg sp uid d = .ok d1 := by
  have hp := parse_agentdata_run cfg ls { d with first_run := true } hshape hbuf
  rw [hrun] at hp
  simp only [start_agent, h1, h2, h3, h4, hout, hstat, hp]
  simp

/-- The first connection of a user whose spawn returns a record with a
process id: the record is written as `start_agent` left it. -/
theorem handle_first_reply (cfg : config) (c : conn_t) (agents : List agent_info_t)
    (d1 : agent_data_t) (hacc : c.accept_ok = true) (hcred : c.peercred_ok = true)
    (hauth : cfg.uid = 0 ∨ cfg.uid = c.uid) (hf : find_node agents c.uid = none)
    (hcal : c.calloc_ok = true)
    (hs : start_agent cfg c.spawn c.uid (calloc cfg.cap) = .ok d1) (hp : d1.pid ≠ 0)
    (hw : c.write_ok = true) :
    (handle cfg c agents).written = [d1] ∧ (handle cfg c agents).spawns = 1 ∧
      (handle cfg c agents).exit = none := by
  have h3 : ¬ (cfg.uid ≠ 0 ∧ cfg.uid ≠ c.uid) := by
    rintro ⟨h0, h1⟩
    rcases hauth with h | h
    · exact h0 h
    · exact h1 h
  simp only [handle, hacc, hcred, h3, hf, hcal, respawn, hs, reply, hp, hw, if_false, if_true,
    Bool.not_true, Bool.false_eq_true, ne_eq, not_false_eq_true, and_self]

theorem long_gpg_shaped : ∀ a ∈ [long_line "GPG_AGENT_INFO", pid_line], a.shaped := by
  intro a ha
  simp only [List.mem_cons, List.mem_singleton, List.not_mem_nil, or_false] at ha
  rcases ha with rfl | rfl
  · exact long_line_shaped _ (by decide) (by decide) (by decide) (by decide)
  · decide

theorem long_gpg_length :
    (announcement [long_line "GPG_AGENT_INFO", pid_line]).length < root_cfg.BUFSIZ := by
  simp only [announcement, List.length_append, List.length_cons, List.length_nil,
    long_line_text_length]
  decide

/-- The two lines of `long_gpg_conn`, parsed into a fresh record whose
`first_run` has been set: the value fills `gpg`, its terminator clears
`first_run`, and the process id is 5. -/
theorem long_gpg_run :
    run_lines [long_line "GPG_AGENT_INFO", pid_line] { calloc 4096 with first_run := true }
      = .ok { status := 0, type := 0, pid := atoi pid_line.value,
              sock := List.replicate 4096 NUL, gpg := List.replicate 4096 'a',
              first_run := false } := by
  have hl := long_line_shaped "GPG_AGENT_INFO" (by decide) (by decide) (by decide) (by decide)
  have hp : pid_line.shaped := by decide
  have n1 : (long_line "GPG_AGENT_INFO").var ≠ "SSH_AUTH_SOCK".toList := by decide
  have n2 : (long_line "GPG_AGENT_INFO").var ≠ "SSH_AGENT_PID".toList := by decide
  have n3 : pid_line.var ≠ "SSH_AUTH_SOCK".toList := by decide
  have e1 : parse_agentdata_line (long_line "GPG_AGENT_INFO").text
      { calloc 4096 with first_run := true }
        = .ok { calloc 4096 with gpg := List.replicate 4096 'a', first_run := false } := by
    have p1 : (long_line "GPG_AGENT_INFO").var = "GPG_AGENT_INFO".toList := rfl
    rw [parse_agentdata_line_shaped _ _ hl, if_neg n1, if_neg n2, if_pos p1]
    exact strcpy_gpg_exact _ _
      (by rw [long_line_value_length]; exact (List.length_replicate _ _).symm)
  have e2 : parse_agentdata_line pid_line.text
      { calloc 4096 with gpg := List.replicate 4096 'a', first_run := false }
        = .ok { status := 0, type := 0, pid := atoi pid_line.value,
                sock := List.replicate 4096 NUL, gpg := List.replicate 4096 'a',
                first_run := false } := by
    have p2 : pid_line.var = "SSH_AGENT_PID".toList := rfl
    rw [parse_agentdata_line_shaped _ _ hp, if_neg n3, if_pos p2]
    rfl
  simp only [run_lines, e1, e2]

/-! ## Theorems -/

/-- C1: when the daemon's effective uid is neither 0 nor the peer's uid,
handling the connection leaves the registry as it was, calls `start_agent`
zero times and writes nothing to the client. -/
theorem C1_rejected_peer_changes_nothing (cfg : config) (c : conn_t)
    (agents : List agent_info_t) (hpriv : cfg.uid ≠ 0) (hpeer : cfg.uid ≠ c.uid) :
    (handle cfg c agents).agents = agents ∧ (handle cfg c agents).spawns = 0 ∧
      (handle cfg c agents).written = [] := by
  have h3 : cfg.uid ≠ 0 ∧ cfg.uid ≠ c.uid := ⟨hpriv, hpeer⟩
  unfold handle
  by_cases h1 : (!c.accept_ok) = true
  · rw [if_pos h1]; exact ⟨rfl, rfl, rfl⟩
  · by_cases h2 : (!c.peercred_ok) = true
    · rw [if_neg h1, if_pos h2]; exact ⟨rfl, rfl, rfl⟩
    · rw [if_neg h1, if_neg h2, if_pos h3]; exact ⟨rfl, rfl, rfl⟩

/-- Scenario D: the daemon of user 1000 is contacted by user 2000 while it
tracks nothing. -/
theorem C1_rejected_peer_witness :
    (handle user_cfg (conn_of 2000 .alive scenario_a 0) []).agents = [] ∧
      (handle user_cfg (conn_of 2000 .alive scenario_a 0) []).spawns = 0 ∧
      (handle user_cfg (conn_of 2000 .alive scenario_a 0) []).written = [] :=
  C1_rejected_peer_changes_nothing user_cfg (conn_of 2000 .alive scenario_a 0) []
    (by decide) (by decide)

/-- C2: an admitted peer whose record has a nonzero process id that answers
the zero-signal probe causes no call of `start_agent`, and what is written
is the stored record (hence the same process id, socket path and auxiliary
info); and a run of connections of one user, the first of which creates the
record with a nonzero process id that answers every later probe, calls
`start_agent` exactly once in total. -/
theorem C2_live_agent_is_reused :
    (∀ (cfg : config) (c : conn_t) (agents : List agent_info_t) (node : agent_info_t),
      c.accept_ok = true → c.peercred_ok = true → (cfg.uid = 0 ∨ cfg.uid = c.uid) →
      find_node agents c.uid = some node → node.d.pid ≠ 0 →
      c.kill0 node.d.pid = .alive →
        (handle cfg c agents).spawns = 0 ∧
        (handle cfg c agents).written = (if c.write_ok then [node.d] else []) ∧
        (∀ r ∈ (handle cfg c agents).written,
          r.pid = node.d.pid ∧ r.sock = node.d.sock ∧ r.gpg = node.d.gpg)) ∧
    (∀ (cfg : config) (c : conn_t) (cs : List conn_t) (agents : List agent_info_t) (p : Int),
      find_node agents c.uid = none →
      (find_node (handle cfg c agents).agents c.uid).map (fun n => n.d.pid) = some p →
      p ≠ 0 →
      (∀ c1 ∈ cs, c1.uid = c.uid ∧ c1.kill0 p = .alive) →
        total_spawns (serve cfg (c :: cs) agents) = 1) := by
  constructor
  · intro cfg c agents node hacc hcred hauth hf hp hk
    have h := handle_alive cfg c agents node hf hp hk
    refine ⟨h.1, handle_alive_written cfg c agents node hacc hcred hauth hf hp hk, ?_⟩
    intro r hr
    rw [h.2.1 r hr]
    exact ⟨rfl, rfl, rfl⟩
  · intro cfg c cs agents p hf hpost hp hall
    have h1 : (handle cfg c agents).spawns = 1 :=
      handle_first_spawn cfg c agents hf (by
        intro hnone
        rw [hnone] at hpost
        simp at hpost)
    simp only [serve, total_spawns, List.map_cons, List.sum_cons, h1]
    split_ifs
    · rfl
    · have := serve_alive_no_spawn cfg c.uid p hp cs (handle cfg c agents).agents hpost hall
      simp only [total_spawns] at this
      omega

/-- Scenarios A and B: user 1000 connects three times to a root daemon that
tracks nothing; the agent announced as process 4242 stays alive. -/
theorem C2_live_agent_is_reused_witness :
    ((handle root_cfg (conn_of 1000 .alive "" 0)
        (handle root_cfg (conn_of 1000 .alive scenario_a 0) []).agents).spawns = 0 ∧
      (handle root_cfg (conn_of 1000 .alive "" 0)
        (handle root_cfg (conn_of 1000 .alive scenario_a 0) []).agents).written.map
          (fun r => (r.pid, cstr r.sock, cstr r.gpg)) = [(4242, "/tmp/a.sock".toList, [])]) ∧
    total_spawns (serve root_cfg
      [conn_of 1000 .alive scenario_a 0, conn_of 1000 .alive "" 0, conn_of 1000 .alive "" 0] [])
        = 1 := by
  refine ⟨⟨?_, by decide⟩, ?_⟩
  · have hnode : ∃ node, find_node (handle root_cfg (conn_of 1000 .alive scenario_a 0) []).agents
        (conn_of 1000 .alive "" 0).uid = some node ∧ node.d.pid = 4242 :=
      ⟨_, rfl, by decide⟩
    obtain ⟨node, hf, hp⟩ := hnode
    exact (C2_live_agent_is_reused.1 root_cfg (conn_of 1000 .alive "" 0) _ node rfl rfl
      (Or.inl rfl) hf (by rw [hp]; decide) (by rfl)).1
  · exact C2_live_agent_is_reused.2 root_cfg (conn_of 1000 .alive scenario_a 0)
      [conn_of 1000 .alive "" 0, conn_of 1000 .alive "" 0] [] 4242 rfl (by decide) (by decide)
      (by decide)

/-- C3: from the empty registry, after any sequence of handled connections
no two records share an owner uid; and a round that lengthens the list was
preceded by a lookup that found no record of the peer. -/
theorem C3_one_record_per_uid :
    (∀ (cfg : config) (cs : List conn_t),
      ((final_agents cfg cs []).map (fun n => n.uid)).Nodup) ∧
    (∀ (cfg : config) (c : conn_t) (agents : List agent_info_t),
      agents.length < (handle cfg c agents).agents.length →
        find_node agents c.uid = none ∧
        (handle cfg c agents).agents.map (fun n => n.uid)
          = c.uid :: agents.map (fun n => n.uid)) := by
  refine ⟨fun cfg cs => final_agents_nodup cfg cs [] List.nodup_nil, ?_⟩
  intro cfg c agents hlen
  rcases handle_uids cfg c agents with e | h
  · have := congrArg List.length e
    simp only [List.length_map] at this
    omega
  · exact h

/-- The first connection of user 1000 lengthens the empty registry. -/
theorem C3_one_record_per_uid_witness :
    ((final_agents root_cfg
        [conn_of 1000 .alive scenario_a 0, conn_of 1001 .alive scenario_a 0,
          conn_of 1000 .alive scenario_a 0] []).map (fun n => n.uid)).Nodup ∧
      (find_node [] (conn_of 1000 .alive scenario_a 0).uid = none ∧
        (handle root_cfg (conn_of 1000 .alive scenario_a 0) []).agents.map (fun n => n.uid)
          = [1000]) :=
  ⟨C3_one_record_per_uid.1 root_cfg _,
    C3_one_record_per_uid.2 root_cfg (conn_of 1000 .alive scenario_a 0) [] (by decide)⟩

/-- C7 (fails on the code): user 1001's agent is started as process 77,
then user 1000's spawn fails, which leaves a record with process id 0 at
the head of the list; `sighandler` with a self-created socket then never
reaches `exit`, however many rounds the loop of `cleanup` is given, so
process 77 is never signalled. -/
theorem C7_cleanup_spins_after_failed_spawn :
    (final_agents root_cfg [conn_of 1001 .alive "SSH_AGENT_PID=77\n" 0, failed_conn 1000] []).map
        (fun n => (n.uid, n.d.pid)) = [(1000, 0), (1001, 77)] ∧
      ∀ fuel : Nat, sighandler fuel false
        (final_agents root_cfg [conn_of 1001 .alive "SSH_AGENT_PID=77\n" 0, failed_conn 1000] [])
          = none :=
  ⟨by decide, sighandler_stuck _ (by decide)⟩

/-- C8 (fails on the code): the first connection of user 1000; the child
announces an info string of 4096 bytes and process id 5.  `start_agent`
runs once and sets `first_run`, but the terminator of the string, copied
unchecked into the 4096 bytes of `gpg`, lands on `first_run`: the record
written in the round that spawned has `first_run = false`.  The other
half of the claim holds in every run from the empty registry: a record
written with `first_run = true` was written by a round that spawned. -/
theorem C8_first_run_cleared_by_long_value :
    ((handle root_cfg long_gpg_conn []).spawns = 1 ∧
      (handle root_cfg long_gpg_conn []).exit = none ∧
      (handle root_cfg long_gpg_conn []).written.map (fun r => (r.pid, r.first_run))
        = [(5, false)]) ∧
    ∀ (cfg : config) (cs : List conn_t) (o : outcome), o ∈ serve cfg cs [] →
      ∀ r ∈ o.written, r.first_run = true → 0 < o.spawns := by
  constructor
  · have hs : start_agent root_cfg long_gpg_conn.spawn long_gpg_conn.uid (calloc root_cfg.cap)
        = .ok { status := 0, type := 0, pid := atoi pid_line.value,
                sock := List.replicate 4096 NUL, gpg := List.replicate 4096 'a',
                first_run := false } :=
      start_agent_run root_cfg long_gpg_conn.spawn long_gpg_conn.uid (calloc 4096) _
        [long_line "GPG_AGENT_INFO", pid_line] rfl rfl rfl rfl rfl rfl long_gpg_shaped
        long_gpg_length long_gpg_run
    have h := handle_first_reply root_cfg long_gpg_conn [] _ rfl rfl (Or.inl rfl) rfl rfl hs
      (by decide) rfl
    refine ⟨h.2.1, h.2.2, ?_⟩
    rw [h.1]
    decide
  · intro cfg cs o ho r hr
    exact (serve_settled cfg cs [] settled_nil o ho r hr).2

/-- C9 (the claim as stated fails): scenario A followed by scenario B.  Both
replies carry status code 0, the value the record was allocated with; the
reply to the spawning request and the reply to the request that finds the
process alive differ in `first_run` only. -/
theorem C9_status_counterexample :
    (serve root_cfg [conn_of 1000 .alive scenario_a 0, conn_of 1000 .alive "" 0] []).map
        (fun o => (o.spawns, o.written.map (fun r => (r.status, r.pid, r.first_run))))
      = [(1, [(0, 4242, true)]), (0, [(0, 4242, false)])] := by
  decide

/-- C9 (amended): in every run from the empty registry, every record
written to a client carries status code 0, the value it was allocated
with; the reply to a request that spawns and the reply to a later request
that finds the process alive therefore carry the same status code. -/
theorem C9_status_is_never_set (cfg : config) (cs : List conn_t) (o : outcome)
    (ho : o ∈ serve cfg cs []) (r : agent_data_t) (hr : r ∈ o.written) : r.status = 0 :=
  (serve_settled cfg cs [] settled_nil o ho r hr).1

/-- Scenario A: the round that spawns writes `scenario_a_reply`, whose
status code is 0. -/
theorem C9_status_is_never_set_witness :
    scenario_a_reply ∈ (handle root_cfg (conn_of 1000 .alive scenario_a 0) []).written ∧
      scenario_a_reply.status = 0 := by
  have h : (handle root_cfg (conn_of 1000 .alive scenario_a 0) []).written
      = [scenario_a_reply] := rfl
  have hm : scenario_a_reply ∈ (handle root_cfg (conn_of 1000 .alive scenario_a 0) []).written := by
    rw [h]; exact List.mem_singleton_self _
  exact ⟨hm, C9_status_is_never_set root_cfg [conn_of 1000 .alive scenario_a 0]
    (handle root_cfg (conn_of 1000 .alive scenario_a 0) []) (List.mem_cons_self _ _)
    scenario_a_reply hm⟩

/-- C10 (the claim as stated fails): user 1000's first connection, the
child exits with status 1.  The round ends normally, `start_agent` ran,
the record has process id 0 and the allocation status code 0, and nothing
is written to the client. -/
theorem C10_failed_spawn_counterexample :
    (handle root_cfg (failed_conn 1000) []).exit = none ∧
      (handle root_cfg (failed_conn 1000) []).spawns = 1 ∧
      (handle root_cfg (failed_conn 1000) []).agents.map (fun n => (n.uid, n.d.status, n.d.pid))
        = [(1000, 0, 0)] ∧
      (handle root_cfg (failed_conn 1000) []).written = [] := by
  decide

/-- C10 (amended): when `start_agent` ran in a round, the wait status was
nonzero and the daemon goes on, the peer's record has process id 0 and
nothing is written to the client. -/
theorem C10_failed_spawn_clears_pid_and_writes_nothing (cfg : config) (c : conn_t)
    (agents : List agent_info_t) (hsp : 0 < (handle cfg c agents).spawns)
    (hstat : c.spawn.stat ≠ 0) (hex : (handle cfg c agents).exit = none) :
    (handle cfg c agents).written = [] ∧
      (find_node (handle cfg c agents).agents c.uid).map (fun n => n.d.pid) = some 0 := by
  revert hsp hex
  cases hf : find_node agents c.uid with
  | none =>
    have hf1 : find_node (⟨c.uid, calloc cfg.cap⟩ :: agents) c.uid
        = some ⟨c.uid, calloc cfg.cap⟩ := by simp [find_node]
    simp only [handle, hf]
    split_ifs <;> intro hsp hex <;>
      first
      | exact absurd hsp (lt_irrefl 0)
      | exact respawn_failed cfg c _ _ _ hf1 hstat hex
  | some node =>
    simp only [handle, hf]
    cases hk : c.kill0 node.d.pid <;> simp only [] <;> split_ifs <;> intro hsp hex <;>
      first
      | exact absurd hsp (lt_irrefl 0)
      | exact respawn_failed cfg c _ _ _ hf hstat hex
      | (simp only [reply] at hsp
         split_ifs at hsp <;> exact absurd hsp (lt_irrefl 0))

/-- The failed first connection of user 1000. -/
theorem C10_failed_spawn_clears_pid_and_writes_nothing_witness :
    (handle root_cfg (failed_conn 1000) []).written = [] ∧
      (find_node (handle root_cfg (failed_conn 1000) []).agents (failed_conn 1000).uid).map
        (fun n => n.d.pid) = some 0 :=
  C10_failed_spawn_clears_pid_and_writes_nothing root_cfg (failed_conn 1000) []
    (by decide) (by decide) (by decide)

/-- C5 (the claim as stated fails): after a line `GPG_AGENT_INFO=` with an
info string, a line `SSH_AUTH_SOCK=` with a value of 4096 bytes fills the
array `sock` of 4096 bytes and its terminator lands on the first byte of
`gpg`, so that the auxiliary info is empty and not the announced string;
the value 4294967297 of an `SSH_AGENT_PID` line is not the process id that
is stored, which is 1; and an announcement that fills the buffer of 8192
bytes makes `parse_agentdata` store the terminator past the buffer. -/
theorem C5_announcement_counterexample :
    (∃ d1 : agent_data_t,
        parse_agentdata root_cfg
          (some (announcement [gpg_line, long_line "SSH_AUTH_SOCK"])) (calloc 4096)
            = .ok (0, d1) ∧
        last_value "GPG_AGENT_INFO".toList [gpg_line, long_line "SSH_AUTH_SOCK"]
          = some "/tmp/gpg.sock:77:1".toList ∧
        cstr d1.gpg = []) ∧
      ((parse_agentdata root_cfg (some "SSH_AGENT_PID=4294967297\n".toList)
          (calloc 4096)).toOption.map (fun r => r.2.pid) = some 1 ∧
        decimal_value "4294967297".toList = 4294967297) ∧
      parse_agentdata root_cfg (some (announcement [wide_line])) (calloc 4096)
        = .error .undefined := by
  refine ⟨?_, ⟨by decide, by simp [decimal_value, Nat.ofDigits]⟩, ?_⟩
  · have hl := long_line_shaped "SSH_AUTH_SOCK" (by decide) (by decide) (by decide) (by decide)
    have hg : gpg_line.shaped := by decide
    have hshape : ∀ a ∈ [gpg_line, long_line "SSH_AUTH_SOCK"], a.shaped := by
      intro a ha
      simp only [List.mem_cons, List.mem_singleton, List.not_mem_nil, or_false] at ha
      rcases ha with rfl | rfl
      · exact hg
      · exact hl
    have hbuf : (announcement [gpg_line, long_line "SSH_AUTH_SOCK"]).length
        < root_cfg.BUFSIZ := by
      simp only [announcement, List.length_append, List.length_cons, List.length_nil,
        long_line_text_length]
      decide
    have hcap := calloc_lengths 4096
    have e1 : parse_agentdata_line gpg_line.text (calloc 4096)
        = .ok (apply_line (calloc 4096) gpg_line) :=
      parse_agentdata_line_apply gpg_line (calloc 4096) hg
        (fun h => absurd h (by decide)) (fun _ => by rw [hcap.2]; decide)
    have hlen := apply_line_lengths (calloc 4096) gpg_line
      (fun h => absurd h (by decide)) (fun _ => by rw [hcap.2]; decide)
    have e2 : parse_agentdata_line (long_line "SSH_AUTH_SOCK").text
        (apply_line (calloc 4096) gpg_line)
          = .ok { apply_line (calloc 4096) gpg_line with
                  sock := List.replicate 4096 'a'
                  gpg := NUL :: ("tmp/gpg.sock:77:1".toList ++ NUL ::
                    (List.replicate 4096 NUL).drop 19) } := by
      have p1 : (long_line "SSH_AUTH_SOCK").var = "SSH_AUTH_SOCK".toList := rfl
      rw [parse_agentdata_line_shaped _ _ hl, if_pos p1]
      exact strcpy_sock_exact _ _ '/' _
        (by rw [long_line_value_length, hlen.1, hcap.1]) rfl
    have hrun : parse_agentdata root_cfg
        (some (announcement [gpg_line, long_line "SSH_AUTH_SOCK"])) (calloc 4096)
          = .ok (0, { apply_line (calloc 4096) gpg_line with
                      sock := List.replicate 4096 'a'
                      gpg := NUL :: ("tmp/gpg.sock:77:1".toList ++ NUL ::
                        (List.replicate 4096 NUL).drop 19) }) := by
      rw [parse_agentdata_run root_cfg _ _ hshape hbuf]
      simp only [run_lines, e1, e2]
    exact ⟨_, hrun, by decide, rfl⟩
  · apply parse_agentdata_full_buffer
    · decide
    · simp only [announcement, wide_line, ann_line.text, List.length_append, List.length_cons,
        List.length_replicate, List.length_nil]
      decide

/-- C5 (amended): for an announcement of fewer than `BUFSIZ` bytes made of
shaped lines, whose `SSH_AUTH_SOCK` and `GPG_AGENT_INFO` values are shorter
than the arrays they go to, `parse_agentdata` returns 0 and leaves
`socket_path`, `process_id` and `auxiliary_info` at the value of the last
line of that name (`atoi` of it for the process id, which is the decimal
number when the value is a digit string below `2 ^ 31`); the value of a
line is the text between its first `=` and its first `;` or its end. -/
theorem C5_announcement_is_parsed (cfg : config) (ls : List ann_line) (d : agent_data_t)
    (hshape : ∀ a ∈ ls, a.shaped) (hbuf : (announcement ls).length < cfg.BUFSIZ)
    (hs : ∀ a ∈ ls, a.var = "SSH_AUTH_SOCK".toList → a.value.length < d.sock.length)
    (hg : ∀ a ∈ ls, a.var = "GPG_AGENT_INFO".toList → a.value.length < d.gpg.length) :
    ∃ d1 : agent_data_t, parse_agentdata cfg (some (announcement ls)) d = .ok (0, d1) ∧
      (∀ v, last_value "SSH_AUTH_SOCK".toList ls = some v → cstr d1.sock = v) ∧
      (∀ v, last_value "SSH_AGENT_PID".toList ls = some v →
        d1.pid = atoi v ∧
        (v ≠ [] → (∀ c ∈ v, '0' ≤ c ∧ c ≤ '9') → decimal_value v < 2 ^ 31 →
          d1.pid = decimal_value v)) ∧
      (∀ v, last_value "GPG_AGENT_INFO".toList ls = some v → cstr d1.gpg = v) ∧
      (∀ a ∈ ls, value_text a.text = a.value) := by
  have hnul : ∀ a ∈ ls, NUL ∉ a.value := by
    intro a ha hm
    apply (hshape a ha).2.2.2.2.2
    simp [ann_line.text, hm]
  obtain ⟨f1, f2, f3, -⟩ := foldl_apply_line_spec ls d hnul
  refine ⟨ls.foldl apply_line d, parse_agentdata_announcement cfg ls d hshape hbuf hs hg,
    ?_, ?_, ?_, fun a ha => value_text_shaped a (hshape a ha)⟩
  · intro v hv
    simp only [hv] at f1
    exact f1
  · intro v hv
    simp only [hv] at f2
    refine ⟨f2, fun hne hd hlt => ?_⟩
    rw [f2, atoi_decimal v hne hd hlt]
  · intro v hv
    simp only [hv] at f3
    exact f3

/-- Scenario A: the announcement `SSH_AUTH_SOCK=/tmp/a.sock;` and
`SSH_AGENT_PID=4242;`, parsed into a fresh record, yields process id 4242
and socket path `/tmp/a.sock`. -/
theorem C5_announcement_is_parsed_witness :
    ∃ d1 : agent_data_t,
      parse_agentdata root_cfg (some scenario_a.toList) (calloc 4096) = .ok (0, d1) ∧
        cstr d1.sock = "/tmp/a.sock".toList ∧ d1.pid = 4242 := by
  have hcap := calloc_lengths 4096
  obtain ⟨d1, h, hsock, hpid, -, -⟩ :=
    C5_announcement_is_parsed root_cfg scenario_a_lines (calloc 4096) (by decide) (by decide)
      (by rw [hcap.1]; decide) (by rw [hcap.2]; decide)
  refine ⟨d1, h, hsock _ rfl, ?_⟩
  have hp := (hpid "4242".toList rfl).2 (by decide) (by decide)
    (by simp [decimal_value, Nat.ofDigits])
  rw [hp]
  simp [decimal_value, Nat.ofDigits]

/-- C6 (fails on the code): a value of 4096 bytes is neither rejected nor
cut; `strcpy` copies it unchecked into the array of 4096 bytes, and the
terminator is stored past the array, in the field that follows.  For
`SSH_AUTH_SOCK` the array `sock` is left without terminator and the first
byte of `gpg` is overwritten, which empties the auxiliary info; for
`GPG_AGENT_INFO` the array `gpg` is left without terminator and `first_run`
is cleared.  The same happens through `parse_agentdata`, whose buffer the
line fits. -/
theorem C6_long_value_is_copied_unchecked :
    (∃ d1 : agent_data_t,
        parse_agentdata_line (long_line "SSH_AUTH_SOCK").text gpg_record = .ok d1 ∧
        d1.sock = List.replicate 4096 'a' ∧ gpg_record.sock.length = 4096 ∧
        cstr gpg_record.gpg = "/tmp/gpg.sock:77:1".toList ∧ cstr d1.gpg = []) ∧
      (∃ d2 : agent_data_t,
        parse_agentdata_line (long_line "GPG_AGENT_INFO").text gpg_record = .ok d2 ∧
        d2.gpg = List.replicate 4096 'a' ∧ gpg_record.gpg.length = 4096 ∧
        gpg_record.first_run = true ∧ d2.first_run = false) ∧
      (∃ d3 : agent_data_t,
        parse_agentdata root_cfg (some (announcement [long_line "SSH_AUTH_SOCK"])) gpg_record
          = .ok (0, d3) ∧
        d3.sock = List.replicate 4096 'a' ∧ cstr d3.gpg = []) := by
  have hs := long_line_shaped "SSH_AUTH_SOCK" (by decide) (by decide) (by decide) (by decide)
  have hg := long_line_shaped "GPG_AGENT_INFO" (by decide) (by decide) (by decide) (by decide)
  have hsock : gpg_record.sock.length = 4096 := List.length_replicate _ _
  have hgpg : gpg_record.gpg.length = 4096 := by
    show ("/tmp/gpg.sock:77:1".toList ++ NUL :: List.replicate 4077 NUL).length = 4096
    simp only [List.length_append, List.length_cons, List.length_replicate]
    decide
  have n1 : (long_line "GPG_AGENT_INFO").var ≠ "SSH_AUTH_SOCK".toList := by decide
  have n2 : (long_line "GPG_AGENT_INFO").var ≠ "SSH_AGENT_PID".toList := by decide
  have e1 : parse_agentdata_line (long_line "SSH_AUTH_SOCK").text gpg_record
      = .ok { gpg_record with
              sock := List.replicate 4096 'a'
              gpg := NUL :: ("tmp/gpg.sock:77:1".toList ++ NUL :: List.replicate 4077 NUL) } := by
    have p1 : (long_line "SSH_AUTH_SOCK").var = "SSH_AUTH_SOCK".toList := rfl
    rw [parse_agentdata_line_shaped _ _ hs, if_pos p1]
    exact strcpy_sock_exact _ _ '/' _ (by rw [long_line_value_length, hsock]) rfl
  have e2 : parse_agentdata_line (long_line "GPG_AGENT_INFO").text gpg_record
      = .ok { gpg_record with gpg := List.replicate 4096 'a', first_run := false } := by
    have p2 : (long_line "GPG_AGENT_INFO").var = "GPG_AGENT_INFO".toList := rfl
    rw [parse_agentdata_line_shaped _ _ hg, if_neg n1, if_neg n2, if_pos p2]
    exact strcpy_gpg_exact _ _ (by rw [long_line_value_length, hgpg])
  refine ⟨⟨_, e1, rfl, hsock, by decide, rfl⟩, ⟨_, e2, rfl, hgpg, rfl, rfl⟩, ?_⟩
  refine ⟨{ gpg_record with
            sock := List.replicate 4096 'a'
            gpg := NUL :: ("tmp/gpg.sock:77:1".toList ++ NUL :: List.replicate 4077 NUL) },
    ?_, rfl, rfl⟩
  have hshape : ∀ a ∈ [long_line "SSH_AUTH_SOCK"], a.shaped := by
    intro a ha
    simp only [List.mem_singleton] at ha
    rw [ha]; exact hs
  have hbuf : (announcement [long_line "SSH_AUTH_SOCK"]).length < root_cfg.BUFSIZ := by
    simp only [announcement, List.length_append, List.length_cons, List.length_nil,
      long_line_text_length]
    decide
  rw [parse_agentdata_run root_cfg _ _ hshape hbuf]
  simp only [run_lines, e1]

/-- C4 (the claim as stated fails): user 1000's record is for process 4242,
which is gone; the respawned child announces its socket only and exits with
status 0.  The reply carries the new socket path together with the process
id 4242 of the dead process. -/
theorem C4_respawn_counterexample :
    (handle root_cfg (conn_of 1000 .esrch socket_only 0) [scenario_a_node]).spawns = 1 ∧
      (handle root_cfg (conn_of 1000 .esrch socket_only 0) [scenario_a_node]).written.map
        (fun r => (r.pid, cstr r.sock, r.first_run))
          = [(4242, "/tmp/b.sock".toList, true)] := by
  decide

/-- C4 (amended): for an admitted peer whose record has a nonzero process id
for which the probe fails with `ESRCH`, the round is one call of
`start_agent` on that record and the owners in the registry stay the same;
and when the child announces shaped lines that fit, among them a process id
that is not 0 and a socket path, and exits with status 0, the record
written carries the announced process id and socket path. -/
theorem C4_dead_agent_is_respawned (cfg : config) (c : conn_t) (agents : List agent_info_t)
    (node : agent_info_t) (hacc : c.accept_ok = true) (hcred : c.peercred_ok = true)
    (hauth : cfg.uid = 0 ∨ cfg.uid = c.uid) (hf : find_node agents c.uid = some node)
    (hp : node.d.pid ≠ 0) (hk : c.kill0 node.d.pid = .esrch) :
    handle cfg c agents = respawn cfg c agents node.d ∧
      (handle cfg c agents).spawns = 1 ∧
      (handle cfg c agents).agents.map (fun n => n.uid) = agents.map (fun n => n.uid) ∧
      (∀ (ls : List ann_line) (vp vs : List Char),
        c.spawn.getpwuid c.uid = true → c.spawn.pipe_ok = true → c.spawn.fork_ok = true →
        c.spawn.wait_ok = true → c.spawn.output = some (announcement ls) →
        c.spawn.stat = 0 → c.write_ok = true →
        (∀ a ∈ ls, a.shaped) → (announcement ls).length < cfg.BUFSIZ →
        (∀ a ∈ ls, a.var = "SSH_AUTH_SOCK".toList → a.value.length < node.d.sock.length) →
        (∀ a ∈ ls, a.var = "GPG_AGENT_INFO".toList → a.value.length < node.d.gpg.length) →
        last_value "SSH_AGENT_PID".toList ls = some vp → atoi vp ≠ 0 →
        last_value "SSH_AUTH_SOCK".toList ls = some vs →
          ∃ r : agent_data_t, (handle cfg c agents).written = [r] ∧
            r.pid = atoi vp ∧ cstr r.sock = vs ∧ r.first_run = true) := by
  have h3 : ¬ (cfg.uid ≠ 0 ∧ cfg.uid ≠ c.uid) := by
    rintro ⟨h0, h1⟩
    rcases hauth with h | h
    · exact h0 h
    · exact h1 h
  have he : handle cfg c agents = respawn cfg c agents node.d := by
    simp only [handle, hacc, hcred, h3, hf, hk, hp, if_false, Bool.not_true, Bool.false_eq_true]
  have hsp : (respawn cfg c agents node.d).spawns = 1 := by
    unfold respawn
    split
    · rfl
    · unfold reply
      split_ifs <;> rfl
  refine ⟨he, by rw [he]; exact hsp, by rw [he]; exact respawn_uids _ _ _ _, ?_⟩
  intro ls vp vs g1 g2 g3 g4 hout hstat hw hshape hbuf hs hg hvp hnz hvs
  have hstart := start_agent_announcement cfg c.spawn c.uid node.d ls g1 g2 g3 g4 hout hstat
    hshape hbuf hs hg
  have hnul : ∀ a ∈ ls, NUL ∉ a.value := by
    intro a ha hm
    apply (hshape a ha).2.2.2.2.2
    simp [ann_line.text, hm]
  obtain ⟨f1, f2, -, f4⟩ := foldl_apply_line_spec ls { node.d with first_run := true } hnul
  simp only [hvs] at f1
  simp only [hvp] at f2
  have hpid : (ls.foldl apply_line { node.d with first_run := true }).pid ≠ 0 := by
    rw [f2]; exact hnz
  refine ⟨ls.foldl apply_line { node.d with first_run := true }, ?_, f2, f1, f4.2.2⟩
  rw [he]
  simp only [respawn, hstart, reply, hpid, hw, ne_eq, not_false_eq_true, if_true]

/-- Scenario C: the record of user 1000 names the dead process 4242; the
new child announces socket `/tmp/b.sock` and process id 4343. -/
theorem C4_dead_agent_is_respawned_witness :
    (handle root_cfg scenario_c_conn [scenario_a_node]).spawns = 1 ∧
      ∃ r : agent_data_t, (handle root_cfg scenario_c_conn [scenario_a_node]).written = [r] ∧
        r.pid = 4343 ∧ cstr r.sock = "/tmp/b.sock".toList ∧ r.first_run = true := by
  have hlen : scenario_a_node.d.sock.length = 4096 ∧ scenario_a_node.d.gpg.length = 4096 := by
    constructor
    · show ("/tmp/a.sock".toList ++ NUL :: List.replicate 4084 NUL).length = 4096
      simp only [List.length_append, List.length_cons, List.length_replicate]
      decide
    · exact List.length_replicate _ _
  have h := C4_dead_agent_is_respawned root_cfg scenario_c_conn [scenario_a_node]
    scenario_a_node rfl rfl (Or.inl rfl) rfl (by decide) rfl
  obtain ⟨r, hw, hpid, hsock, hfr⟩ := h.2.2.2 scenario_c_lines "4343".toList "/tmp/b.sock".toList
    rfl rfl rfl rfl rfl rfl rfl (by decide) (by decide)
    (by rw [hlen.1]; decide) (by rw [hlen.2]; decide) rfl (by decide) rfl
  refine ⟨h.2.1, r, hw, ?_, hsock, hfr⟩
  rw [hpid]
  decide

/-- C11: a line that holds no `=` before its first `;`, or whose variable
name (the text before its first `=`) is none of `SSH_AUTH_SOCK`,
`SSH_AGENT_PID` and `GPG_AGENT_INFO`, makes `parse_agentdata_line` return
normally with the record as it was, field for field. -/
theorem C11_unrecognized_line_is_ignored (val : List Char) (info : agent_data_t)
    (h : '=' ∉ before_semicolon val ∨
      (var_name val ≠ "SSH_AUTH_SOCK".toList ∧ var_name val ≠ "SSH_AGENT_PID".toList ∧
        var_name val ≠ "GPG_AGENT_INFO".toList)) :
    parse_agentdata_line val info = .ok info := by
  have hcut : (match strchr val ';' with
      | some eol => val.take eol
      | none => val) = before_semicolon val := strchr_cut val ';'
  unfold parse_agentdata_line
  simp only [hcut]
  cases hs : strchr (before_semicolon val) '=' with
  | none => rfl
  | some i =>
    obtain ⟨hm, ht⟩ := strchr_some_take _ _ i hs
    rcases h with h | ⟨h1, h2, h3⟩
    · exact absurd hm h
    · have hv : (before_semicolon val).take i = var_name val := by
        rw [ht]; exact var_name_before_semicolon val hm
      simp only [hv, h1, h2, h3, if_false]

/-- The line `echo Agent pid 4242;` of `ssh-agent`, which holds no `=`, and
a line that sets `SSH_ASKPASS` leave the record of scenario A as it is. -/
theorem C11_unrecognized_line_is_ignored_witness :
    parse_agentdata_line echo_line scenario_a_reply = .ok scenario_a_reply ∧
      parse_agentdata_line askpass_line scenario_a_reply = .ok scenario_a_reply :=
  ⟨C11_unrecognized_line_is_ignored echo_line scenario_a_reply (Or.inl (by decide)),
    C11_unrecognized_line_is_ignored askpass_line scenario_a_reply
      (Or.inr ⟨by decide, by decide, by decide⟩)⟩

end Envoyd
